import Mathlib

/-
Shallow embedding of the Expense_Tracker repository: the storage layer
(src/storage_db.py over the SQLAlchemy models in src/models.py) and the
JSON endpoints of src/app.py that the claims concern.

Conventions of the embedding:
* Python floats (amounts, limits) are modelled as exact rationals.
* SQL rows live in Lean lists; a table is a list of records plus a counter
  for the next autoincrement primary key.
* A Python function that can raise an exception which escapes (rolling the
  transaction back, see get_session in src/db.py) returns Except.
-/

namespace ExpenseTracker

/-- A calendar date as held by the `expenses.date` column (SQLAlchemy `Date`). -/
structure PyDate where
  year : Nat
  month : Nat
  day : Nat
deriving DecidableEq

def isLeapYear (y : Nat) : Bool :=
  (y % 4 == 0 && y % 100 != 0) || (y % 400 == 0)

def daysInMonth (y m : Nat) : Nat :=
  if m == 2 then (if isLeapYear y then 29 else 28)
  else if m == 4 || m == 6 || m == 9 || m == 11 then 30
  else 31

/-- Validity bounds of `datetime.date`: year 1..9999, real calendar day. -/
def PyDate.valid (d : PyDate) : Bool :=
  1 ≤ d.year && d.year ≤ 9999 && 1 ≤ d.month && d.month ≤ 12 &&
    1 ≤ d.day && d.day ≤ daysInMonth d.year d.month

def pad2 (n : Nat) : String :=
  if n < 10 then "0" ++ toString n else toString n

def pad4 (n : Nat) : String :=
  if n < 10 then "000" ++ toString n
  else if n < 100 then "00" ++ toString n
  else if n < 1000 then "0" ++ toString n
  else toString n

/-- `date.isoformat()`: zero-padded YYYY-MM-DD. -/
def PyDate.isoformat (d : PyDate) : String :=
  pad4 d.year ++ "-" ++ pad2 d.month ++ "-" ++ pad2 d.day

/-- `strftime('%Y-%m', date)` as used by monthly_totals: zero-padded YYYY-MM. -/
def PyDate.ym (d : PyDate) : String :=
  pad4 d.year ++ "-" ++ pad2 d.month

def digitVal (c : Char) : Option Nat :=
  if c.isDigit then some (c.toNat - 48) else none

/-- `date.fromisoformat`: accepts exactly `YYYY-MM-DD` naming a real calendar
date, else raises ValueError (modelled as `none`). -/
def dateFromIsoformat (s : String) : Option PyDate :=
  match s.toList with
  | [y1, y2, y3, y4, h1, m1, m2, h2, d1, d2] =>
    if h1 == '-' && h2 == '-' then
      match digitVal y1, digitVal y2, digitVal y3, digitVal y4,
            digitVal m1, digitVal m2, digitVal d1, digitVal d2 with
      | some a, some b, some c, some d, some e, some f, some g, some h =>
        let dt : PyDate := ⟨((a * 10 + b) * 10 + c) * 10 + d, e * 10 + f, g * 10 + h⟩
        if dt.valid then some dt else none
      | _, _, _, _, _, _, _, _ => none
    else none
  | _ => none

def parseFixed2 : List Char → Option (Nat × List Char)
  | c1 :: c2 :: rest =>
    match digitVal c1, digitVal c2 with
    | some a, some b => some (a * 10 + b, rest)
    | _, _ => none
  | _ => none

/-- CPython `_parse_hh_mm_ss_ff`: `HH[:MM[:SS[.fff[fff]]]]` (fraction 3 or 6
digits); yields the hour/minute/second components. -/
def parseHMSF (l : List Char) : Option (Nat × Nat × Nat) :=
  match parseFixed2 l with
  | none => none
  | some (h, rest) =>
    match rest with
    | [] => some (h, 0, 0)
    | ':' :: r2 =>
      match parseFixed2 r2 with
      | none => none
      | some (m, rest2) =>
        match rest2 with
        | [] => some (h, m, 0)
        | ':' :: r3 =>
          match parseFixed2 r3 with
          | none => none
          | some (s, rest3) =>
            match rest3 with
            | [] => some (h, m, s)
            | '.' :: fr =>
              if (fr.length == 3 || fr.length == 6) && fr.all (fun c => c.isDigit) then
                some (h, m, s)
              else none
            | _ => none
        | _ => none
    | _ => none

/-- Range checks done by the datetime/timezone constructors. -/
def timeCompsOk (h m s : Nat) : Bool :=
  h ≤ 23 && m ≤ 59 && s ≤ 59

/-- CPython `_parse_isoformat_time`: `HH[:MM[:SS[.fff[fff]]]]` optionally
followed by a timezone `±HH:MM[:SS[.ffffff]]` (the sign found as the first
`-`, else the first `+`; the part after the sign must have length 5, 8 or
15). -/
def parseIsoTimeOk (l : List Char) : Bool :=
  match (l.findIdx? (fun c => c == '-')).orElse (fun _ => l.findIdx? (fun c => c == '+')) with
  | none =>
    match parseHMSF l with
    | some (h, m, s) => timeCompsOk h m s
    | none => false
  | some i =>
    match parseHMSF (l.take i) with
    | none => false
    | some (h, m, s) =>
      let tz := l.drop (i + 1)
      timeCompsOk h m s &&
        (tz.length == 5 || tz.length == 8 || tz.length == 15) &&
        (match parseHMSF tz with
         | some (th, tm, ts) => timeCompsOk th tm ts
         | none => false)

/-- `datetime.fromisoformat` (pre-3.11 semantics): a valid `YYYY-MM-DD`,
optionally followed by one separator character (any character) and a valid
time string. Returns whether parsing succeeds. -/
def datetimeFromIsoformatOk (s : String) : Bool :=
  let l := s.toList
  match dateFromIsoformat (String.mk (l.take 10)) with
  | none => false
  | some _ =>
    match l.drop 10 with
    | [] => true
    | _ :: rest => parseIsoTimeOk rest

/-- Python `str.strip()` whitespace set (ASCII part). -/
def isPySpace (c : Char) : Bool :=
  c == ' ' || c == '\t' || c == '\n' || c == '\r' || c == '\x0b' || c == '\x0c'

/-- Python `str.strip()`. -/
def pyStrip (s : String) : String :=
  String.mk (((s.toList.dropWhile isPySpace).reverse.dropWhile isPySpace).reverse)

/-- Code-point lexicographic order on character lists: Python's `<` on
strings, and also the BINARY collation SQLite uses for ORDER BY and
comparisons on TEXT columns. -/
def charListLt : List Char → List Char → Bool
  | [], [] => false
  | [], _ :: _ => true
  | _ :: _, [] => false
  | a :: as, b :: bs => if a < b then true else if a == b then charListLt as bs else false

def pyStrLt (a b : String) : Bool := charListLt a.toList b.toList

def pyStrLE (a b : String) : Bool := !(pyStrLt b a)

/- ---------------------------------------------------------------------
   Data model (src/models.py): one record type per table, a table is a
   list of rows plus the next autoincrement id.
   --------------------------------------------------------------------- -/

/-- Row of the `expenses` table. -/
structure Expense where
  id : Nat
  user_id : Nat
  amount : Rat
  category : String
  date : Option PyDate
  note : String
deriving DecidableEq

/-- Row of the `budgets` table. -/
structure Budget where
  id : Nat
  user_id : Nat
  month : String
  limit_amount : Rat
deriving DecidableEq

/-- Row of the `categories` table. -/
structure Category where
  id : Nat
  user_id : Nat
  name : String
deriving DecidableEq

/-- The record store (user table omitted: no claim mentions it). -/
structure DB where
  expenses : List Expense
  budgets : List Budget
  categories : List Category
  next_expense_id : Nat
  next_budget_id : Nat
  next_category_id : Nat
deriving DecidableEq

/-- The dict shape storage_db returns for an expense: `date` is rendered
with `isoformat()` (or None). -/
structure Row where
  id : Nat
  user_id : Nat
  amount : Rat
  category : String
  date : Option String
  note : String
deriving DecidableEq

def Expense.toRow (e : Expense) : Row :=
  ⟨e.id, e.user_id, e.amount, e.category, e.date.map PyDate.isoformat, e.note⟩

/-- An exception escaping a storage function (the transaction in
src/db.py's get_session rolls back, so the store is unchanged). -/
inductive StorageErr where
  /-- ValueError from `date.fromisoformat`. -/
  | parseError
  /-- a non-date value bound to the Date column. -/
  | typeError
  /-- `MultipleResultsFound` from `scalar_one_or_none`. -/
  | multipleResults
deriving DecidableEq

/-- Replace the first row matched by `p` (the ORM mutates the one fetched
object; primary-key lookups match at most one row in the real store). -/
def replaceFirstBy (p : α → Bool) (x : α) : List α → List α
  | [] => []
  | y :: ys => if p y then x :: ys else y :: replaceFirstBy p x ys

/- ---------------------------------------------------------------------
   Storage layer (src/storage_db.py).
   --------------------------------------------------------------------- -/

/-- `find_expense`: `session.get(Expense, expense_id)` by primary key. -/
def find_expense (db : DB) (expense_id : Nat) : Option Expense :=
  db.expenses.find? (fun e => e.id == expense_id)

/-- SQL `ORDER BY date DESC, id DESC` on TEXT-stored dates; SQLite sorts
NULL below every value, hence NULL dates come last under DESC. -/
def sqlDescBefore (a b : Expense) : Bool :=
  match a.date, b.date with
  | none, none => decide (b.id ≤ a.id)
  | none, some _ => false
  | some _, none => true
  | some da, some dbb =>
    pyStrLt dbb.isoformat da.isoformat ||
      (dbb.isoformat == da.isoformat && decide (b.id ≤ a.id))

instance : DecidableRel (fun a b : Expense => sqlDescBefore a b = true) :=
  fun a b => instDecidableEqBool (sqlDescBefore a b) true

/-- `get_user_expenses`: the user's rows ordered by date desc, id desc. -/
def get_user_expenses (db : DB) (user_id : Nat) : List Row :=
  (List.insertionSort (fun a b => sqlDescBefore a b = true)
    (db.expenses.filter (fun e => e.user_id == user_id))).map Expense.toRow

/-- The dict handed to `save_expense`. -/
structure ExpenseIn where
  user_id : Nat
  amount : Rat
  category : String
  date : Option String
  note : String
deriving DecidableEq

/-- `save_expense`: parses `expense["date"]` with `date.fromisoformat`
when it is truthy (a ValueError escapes, rolling back), inserts, and
returns the persisted dict. -/
def save_expense (db : DB) (x : ExpenseIn) : Except StorageErr (Row × DB) :=
  match x.date with
  | some s =>
    if s == "" then
      let obj : Expense := ⟨db.next_expense_id, x.user_id, x.amount, x.category, none, x.note⟩
      .ok (obj.toRow, { db with expenses := db.expenses ++ [obj],
                                next_expense_id := db.next_expense_id + 1 })
    else
      match dateFromIsoformat s with
      | none => .error .parseError
      | some d =>
        let obj : Expense := ⟨db.next_expense_id, x.user_id, x.amount, x.category, some d, x.note⟩
        .ok (obj.toRow, { db with expenses := db.expenses ++ [obj],
                                  next_expense_id := db.next_expense_id + 1 })
  | none =>
    let obj : Expense := ⟨db.next_expense_id, x.user_id, x.amount, x.category, none, x.note⟩
    .ok (obj.toRow, { db with expenses := db.expenses ++ [obj],
                              next_expense_id := db.next_expense_id + 1 })

/-- The partial field set handed to `update_expense` (`None` = key absent;
only the four keys the boundary layer forwards can occur). -/
structure Updates where
  amount : Option Rat
  category : Option String
  date : Option String
  note : Option String
deriving DecidableEq

def Updates.isEmptyDict (u : Updates) : Bool :=
  u.amount.isNone && u.category.isNone && u.date.isNone && u.note.isNone

/-- `update_expense`: fetches by id, applies the supplied fields
(`date` values that are truthy are parsed with `date.fromisoformat`, a
falsy one would be bound raw and rejected by the Date column), flushes,
and returns the updated dict; `None` when the id does not exist. -/
def update_expense (db : DB) (expense_id : Nat) (upd : Updates) :
    Except StorageErr (Option (Row × DB)) :=
  match find_expense db expense_id with
  | none => .ok none
  | some e =>
    let e1 := match upd.amount with | none => e | some a => { e with amount := a }
    let e2 := match upd.category with | none => e1 | some c => { e1 with category := c }
    match upd.date with
    | some s =>
      if s == "" then .error .typeError
      else
        match dateFromIsoformat s with
        | none => .error .parseError
        | some d =>
          let e3 := { e2 with date := some d }
          let e4 := match upd.note with | none => e3 | some n => { e3 with note := n }
          .ok (some (e4.toRow,
            { db with expenses := replaceFirstBy (fun r => r.id == expense_id) e4 db.expenses }))
    | none =>
      let e4 := match upd.note with | none => e2 | some n => { e2 with note := n }
      .ok (some (e4.toRow,
        { db with expenses := replaceFirstBy (fun r => r.id == expense_id) e4 db.expenses }))

/-- `delete_expense`: removes the row when present. -/
def delete_expense (db : DB) (expense_id : Nat) : Bool × DB :=
  match find_expense db expense_id with
  | none => (false, db)
  | some _ => (true, { db with expenses := db.expenses.eraseP (fun r => r.id == expense_id) })

/-- One step of the SQL GROUP BY + SUM accumulation. -/
def addToGroup (acc : List (Option String × Rat)) (k : Option String) (a : Rat) :
    List (Option String × Rat) :=
  match acc with
  | [] => [(k, a)]
  | (k2, s) :: rest => if k2 == k then (k2, s + a) :: rest else (k2, s) :: addToGroup rest k a

/-- `SELECT key, SUM(amount) ... GROUP BY key` over (key, amount) rows. -/
def groupSum (rows : List (Option String × Rat)) : List (Option String × Rat) :=
  rows.foldl (fun acc r => addToGroup acc r.1 r.2) []

/-- `monthly_totals`: groups the user's expenses by
`strftime('%Y-%m', date)` (NULL for a NULL date), sums amounts, and builds
the dict with `ym or ""`, i.e. the NULL group keyed by the empty string. -/
def monthly_totals (db : DB) (user_id : Nat) : List (String × Rat) :=
  (groupSum ((db.expenses.filter (fun e => e.user_id == user_id)).map
      (fun e => (e.date.map PyDate.ym, e.amount)))).map
    (fun p => (p.1.getD "", p.2))

/-- `monthly_totals(user_id).get(k)`: the mapping the returned dict holds. -/
def monthlyTotal (db : DB) (user_id : Nat) (k : String) : Option Rat :=
  (monthly_totals db user_id).lookup k

/-- `get_budget`: `scalar_one_or_none` over the (user_id, month) rows. -/
def get_budget (db : DB) (user_id : Nat) (month : String) :
    Except StorageErr (Option Budget) :=
  match db.budgets.filter (fun b => b.user_id == user_id && b.month == month) with
  | [] => .ok none
  | [b] => .ok (some b)
  | _ => .error .multipleResults

/-- `upsert_budget`: overwrite the existing (user_id, month) row's
limit_amount, else insert a fresh row. -/
def upsert_budget (db : DB) (user_id : Nat) (month : String) (limit_amount : Rat) :
    Except StorageErr (Budget × DB) :=
  match get_budget db user_id month with
  | .error e => .error e
  | .ok (some b) =>
    let b2 := { b with limit_amount := limit_amount }
    let p := fun r : Budget => r.user_id == user_id && r.month == month
    .ok (b2, { db with budgets := replaceFirstBy p b2 db.budgets })
  | .ok none =>
    let b2 : Budget := ⟨db.next_budget_id, user_id, month, limit_amount⟩
    .ok (b2, { db with budgets := db.budgets ++ [b2],
                       next_budget_id := db.next_budget_id + 1 })

/-- The status dict produced by `get_budget_status`. -/
structure BudgetStatus where
  month : String
  limit : Option Rat
  spent : Rat
  remaining : Option Rat
  status : String
deriving DecidableEq

/-- `get_budget_status`: spent is the monthly total for the month
(0.0 when absent); without a budget row the status is "no_budget",
otherwise classified via remaining/ratio against the fixed 0.9 threshold. -/
def get_budget_status (db : DB) (user_id : Nat) (month : String) :
    Except StorageErr BudgetStatus :=
  match get_budget db user_id month with
  | .error e => .error e
  | .ok budget =>
    let spent := (monthlyTotal db user_id month).getD 0
    match budget with
    | none => .ok ⟨month, none, spent, none, "no_budget"⟩
    | some b =>
      let limit_val := b.limit_amount
      let remaining := max (limit_val - spent) 0
      let frac := if limit_val > 0 then spent / limit_val else 0
      let status :=
        if limit_val ≤ 0 then "no_budget"
        else if spent > limit_val then "over"
        else if frac ≥ 9 / 10 then "warning"
        else "ok"
      .ok ⟨month, some limit_val, spent, some remaining, status⟩

def DEFAULT_CATEGORIES : List String :=
  ["Food & Dining", "Transportation", "Shopping", "Entertainment",
   "Bills & Utilities", "Healthcare", "Education", "Travel", "Groceries", "Other"]

/-- Rows inserted by the default seeding, ids assigned in order. -/
def seedRows (startId user_id : Nat) : List String → List Category
  | [] => []
  | n :: ns => ⟨startId, user_id, n⟩ :: seedRows (startId + 1) user_id ns

/-- `_ensure_default_categories`: seeds the defaults only when the user
has zero category rows. -/
def ensure_default_categories (db : DB) (user_id : Nat) : DB :=
  if (db.categories.filter (fun c => c.user_id == user_id)).isEmpty then
    { db with
      categories := db.categories ++ seedRows db.next_category_id user_id DEFAULT_CATEGORIES,
      next_category_id := db.next_category_id + DEFAULT_CATEGORIES.length }
  else db

def nameAsc (a b : Category) : Bool := pyStrLE a.name b.name

instance : DecidableRel (fun a b : Category => nameAsc a b = true) :=
  fun a b => instDecidableEqBool (nameAsc a b) true

/-- `list_categories`: ensure defaults, then the user's rows ordered by
name ascending, rendered as (id, name) dicts. -/
def list_categories (db : DB) (user_id : Nat) : List (Nat × String) × DB :=
  let db2 := ensure_default_categories db user_id
  ((List.insertionSort (fun a b => nameAsc a b = true)
      (db2.categories.filter (fun c => c.user_id == user_id))).map
    (fun c => (c.id, c.name)), db2)

inductive AddCatErr where
  /-- ValueError "name required". -/
  | emptyName
  /-- `MultipleResultsFound` from `scalar_one_or_none`. -/
  | multipleResults
deriving DecidableEq

/-- `add_category`: strip, reject empty, return the existing
(user_id, name) row if any, else insert. -/
def add_category (db : DB) (user_id : Nat) (name : String) :
    Except AddCatErr ((Nat × String) × DB) :=
  let name2 := pyStrip name
  if name2 == "" then .error .emptyName
  else
    match db.categories.filter (fun c => c.user_id == user_id && c.name == name2) with
    | [] =>
      let obj : Category := ⟨db.next_category_id, user_id, name2⟩
      .ok ((obj.id, obj.name),
        { db with categories := db.categories ++ [obj],
                  next_category_id := db.next_category_id + 1 })
    | [c] => .ok ((c.id, c.name), db)
    | _ => .error .multipleResults

/-- `delete_category`: not-found when the id is absent or owned by a
different user; otherwise deletes. -/
def delete_category (db : DB) (user_id : Nat) (category_id : Nat) : Bool × DB :=
  match db.categories.find? (fun c => c.id == category_id) with
  | none => (false, db)
  | some c =>
    if c.user_id != user_id then (false, db)
    else (true, { db with categories := db.categories.eraseP (fun x => x.id == category_id) })

/- ---------------------------------------------------------------------
   JSON endpoints (src/app.py), for an authenticated user `uid`.
   --------------------------------------------------------------------- -/

/-- A JSON value supplied for `amount`: `num q` stands for any value that
`float()` converts to the number q (numbers and numeric strings);
`notNum` for any value on which `float()` raises. NaN/inf floats are
outside this model. -/
inductive AmountIn where
  | num (q : Rat)
  | notNum
deriving DecidableEq

/-- The JSON body of POST /api/expenses (`None` = key absent; `date`
values that are not strings are outside this model). -/
structure AddData where
  amount : Option AmountIn
  category : Option String
  note : Option String
  date : Option String
deriving DecidableEq

inductive AddResult where
  /-- 400, "Invalid or missing 'amount'" or "Amount must be greater than 0". -/
  | invalidAmount
  /-- 400, "Invalid 'date' format. Use YYYY-MM-DD." -/
  | invalidDate
  /-- 201 with the persisted record. -/
  | created (row : Row)
  /-- an exception out of the storage layer: HTTP 500. -/
  | storageFailure
deriving DecidableEq

/-- `api_add_expense` (src/app.py): validates amount with `float` and `> 0`,
validates a truthy date with `datetime.fromisoformat`, defaults category to
"Uncategorized", note to "", and a falsy date to today (UTC); then calls
`save_expense`. -/
def api_add_expense (db : DB) (uid : Nat) (data : AddData) (today : PyDate) :
    AddResult × DB :=
  match data.amount with
  | none => (.invalidAmount, db)
  | some .notNum => (.invalidAmount, db)
  | some (.num q) =>
    if q ≤ 0 then (.invalidAmount, db)
    else
      let category := data.category.getD "Uncategorized"
      let note := data.note.getD ""
      let dstr := data.date.getD ""
      if dstr == "" then
        match save_expense db ⟨uid, q, category, some today.isoformat, note⟩ with
        | .ok (row, db2) => (.created row, db2)
        | .error _ => (.storageFailure, db)
      else if datetimeFromIsoformatOk dstr then
        match save_expense db ⟨uid, q, category, some dstr, note⟩ with
        | .ok (row, db2) => (.created row, db2)
        | .error _ => (.storageFailure, db)
      else (.invalidDate, db)

/-- The error CPython's sort raises when it compares a None sort key with
a string sort key. -/
inductive PyErr where
  | typeErr
deriving DecidableEq

/-- `category is None or it.get("category") == category`. -/
def catMatch (it : Row) (category : Option String) : Bool :=
  match category with
  | none => true
  | some c => it.category == c

/-- `in_range` (closure in api_list_expenses): a falsy date always passes;
bounds apply only when themselves truthy, compared as strings. -/
def in_range (it : Row) (date_from date_to : Option String) : Bool :=
  match it.date with
  | none => true
  | some s =>
    if s == "" then true
    else if (match date_from with | none => false | some f => !(f == "") && pyStrLt s f) then false
    else if (match date_to with | none => false | some t => !(t == "") && pyStrLt t s) then false
    else true

/-- The sort key `(x.get("date",""), x.get("id",0))` of api_list_expenses:
note `get` returns the stored None for a dateless row, so the first
component is None-or-string. This comparator totalizes CPython's partial
tuple comparison; the mixed None/string cases (on which CPython raises
TypeError) are gated separately. -/
def pyKeyLE (a b : Row) : Bool :=
  match a.date, b.date with
  | none, none => decide (a.id ≤ b.id)
  | none, some _ => true
  | some _, none => false
  | some da, some dbb => pyStrLt da dbb || (da == dbb && decide (a.id ≤ b.id))

instance : DecidableRel (fun a b : Row => pyKeyLE b a = true) :=
  fun a b => instDecidableEqBool (pyKeyLE b a) true

/-- Whether the filtered list holds both a dateless and a dated row: then
`filtered.sort(...)` compares a None key with a string key and raises
TypeError. -/
def mixedDates (l : List Row) : Bool :=
  l.any (fun r => r.date.isNone) && l.any (fun r => r.date.isSome)

/-- `api_list_expenses`: the user's rows, filtered by category and date
range, sorted by key (date, id) with reverse=True. -/
def api_list_expenses (db : DB) (uid : Nat) (category date_from date_to : Option String) :
    Except PyErr (List Row) :=
  let items := get_user_expenses db uid
  let filtered := items.filter (fun it => catMatch it category && in_range it date_from date_to)
  if mixedDates filtered then .error .typeErr
  else .ok (List.insertionSort (fun a b => pyKeyLE b a = true) filtered)

inductive GetResult where
  | notFound
  | found (row : Row)
deriving DecidableEq

/-- `api_get_expense`: not-found when the id is absent or the record is
owned by another user. -/
def api_get_expense (db : DB) (uid expense_id : Nat) : GetResult :=
  match find_expense db expense_id with
  | none => .notFound
  | some e => if e.user_id != uid then .notFound else .found e.toRow

/-- The JSON body of PUT /api/expenses/<id> (`None` = key absent). -/
structure UpdateData where
  amount : Option AmountIn
  category : Option String
  date : Option String
  note : Option String
deriving DecidableEq

inductive UpdateResult where
  | notFound
  /-- 400, "Invalid 'amount'" or "Amount must be greater than 0". -/
  | invalidAmount
  /-- 400, "Invalid 'date' format. Use YYYY-MM-DD." -/
  | invalidDate
  /-- 400, "No valid update fields provided". -/
  | noFields
  /-- 200 with the updated record. -/
  | updated (row : Row)
  /-- 200 with a null body (unreachable: the preceding find succeeded). -/
  | nullUpdated
  /-- an exception out of the storage layer: HTTP 500. -/
  | storageFailure
deriving DecidableEq

/-- Tail of api_update_expense after validation built `allowed`. -/
def applyUpdate (db : DB) (expense_id : Nat) (allowed : Updates) : UpdateResult × DB :=
  if allowed.isEmptyDict then (.noFields, db)
  else
    match update_expense db expense_id allowed with
    | .ok (some (row, db2)) => (.updated row, db2)
    | .ok none => (.nullUpdated, db)
    | .error _ => (.storageFailure, db)

/-- `api_update_expense`: ownership check, per-field validation building
`allowed` (amount via `float` and `> 0`, date via `datetime.fromisoformat`),
NoFieldsProvided when `allowed` stays empty, then `update_expense`. -/
def api_update_expense (db : DB) (uid expense_id : Nat) (data : UpdateData) :
    UpdateResult × DB :=
  match find_expense db expense_id with
  | none => (.notFound, db)
  | some it =>
    if it.user_id != uid then (.notFound, db)
    else
      match data.amount with
      | some .notNum => (.invalidAmount, db)
      | some (.num q) =>
        if q ≤ 0 then (.invalidAmount, db)
        else
          match data.date with
          | some s =>
            if datetimeFromIsoformatOk s then
              applyUpdate db expense_id ⟨some q, data.category, some s, data.note⟩
            else (.invalidDate, db)
          | none => applyUpdate db expense_id ⟨some q, data.category, none, data.note⟩
      | none =>
        match data.date with
        | some s =>
          if datetimeFromIsoformatOk s then
            applyUpdate db expense_id ⟨none, data.category, some s, data.note⟩
          else (.invalidDate, db)
        | none => applyUpdate db expense_id ⟨none, data.category, none, data.note⟩

inductive DeleteResult where
  | notFound
  | deleted (expense_id : Nat)
  /-- 500 "delete failed" (unreachable: the preceding find succeeded). -/
  | deleteFailed
deriving DecidableEq

/-- `api_delete_expense`: ownership check, then `delete_expense`. -/
def api_delete_expense (db : DB) (uid expense_id : Nat) : DeleteResult × DB :=
  match find_expense db expense_id with
  | none => (.notFound, db)
  | some it =>
    if it.user_id != uid then (.notFound, db)
    else
      match delete_expense db expense_id with
      | (true, db2) => (.deleted expense_id, db2)
      | (false, db2) => (.deleteFailed, db2)

/-- A sequence of set-budget operations (user_id, month, limit_amount),
run left to right, each in its own transaction. -/
def runBudgetOps (db : DB) : List (Nat × String × Rat) → Except StorageErr DB
  | [] => .ok db
  | (u, m, q) :: rest =>
    match upsert_budget db u m q with
    | .error e => .error e
    | .ok (_, db2) => runBudgetOps db2 rest

instance {ε α : Type} [DecidableEq ε] [DecidableEq α] : DecidableEq (Except ε α) := fun x y =>
  match x, y with
  | .ok a, .ok b =>
    if h : a = b then isTrue (by rw [h]) else isFalse (fun hc => h (Except.ok.inj hc))
  | .error a, .error b =>
    if h : a = b then isTrue (by rw [h]) else isFalse (fun hc => h (Except.error.inj hc))
  | .ok a, .error b => isFalse (fun hc => Except.noConfusion hc)
  | .error a, .ok b => isFalse (fun hc => Except.noConfusion hc)

/- ---------------------------------------------------------------------
   Invariants of the stores and concrete store states used below.
   --------------------------------------------------------------------- -/

/-- Month key of an expense as it ends up in the monthly_totals dict:
`strftime('%Y-%m', date)` with the NULL group keyed "". -/
def monthKeyStr (e : Expense) : String :=
  (e.date.map PyDate.ym).getD ""

/-- Well-formedness of the budgets table: primary keys are unique and
below the autoincrement counter, and the uq_budgets_user_month unique
constraint holds. -/
def budgetsWF (db : DB) : Prop :=
  db.budgets.Pairwise (fun x y => x.id ≠ y.id) ∧
  (∀ b ∈ db.budgets, b.id < db.next_budget_id) ∧
  db.budgets.Pairwise (fun x y => ¬(x.user_id = y.user_id ∧ x.month = y.month))

/-- Number of budget rows for one (user_id, month). -/
def budgetCount (db : DB) (user_id : Nat) (month : String) : Nat :=
  (db.budgets.filter (fun b => b.user_id == user_id && b.month == month)).length

/-- Date-range predicate spelled the way the specification states it: the
expense's date itself lies in the inclusive range, whenever any bound is
supplied. (api_list_expenses implements something else for dateless rows;
the two are compared below.) -/
def specDateInRange (r : Row) (date_from date_to : Option String) : Bool :=
  match date_from, date_to with
  | none, none => true
  | _, _ =>
    match r.date with
    | none => false
    | some s =>
      (match date_from with | none => true | some f => pyStrLE f s) &&
      (match date_to with | none => true | some t => pyStrLE s t)

/-- The claim's display order: descending by date, ties broken by
descending id; dateless rows ordered after all dated rows, among
themselves by descending id. -/
def listedGE (a b : Row) : Prop :=
  match a.date, b.date with
  | some da, some dbb => pyStrLt dbb da = true ∨ (dbb = da ∧ b.id ≤ a.id)
  | none, none => b.id ≤ a.id
  | some _, none => True
  | none, some _ => False

/-- The rows of one user as storage returns them, before any ordering:
the reference set for the listing claims. -/
def rowsOfUser (db : DB) (u : Nat) : List Row :=
  (db.expenses.filter (fun e => e.user_id == u)).map Expense.toRow

/-- C1: user 1 with expenses dated 2024-01-05 (10) and 2024-01-20 (20)
and one dateless expense (99). -/
def c1db : DB :=
  ⟨[⟨1, 1, 10, "Food", some ⟨2024, 1, 5⟩, ""⟩,
    ⟨2, 1, 20, "Food", some ⟨2024, 1, 20⟩, ""⟩,
    ⟨3, 1, 99, "Food", none, ""⟩], [], [], 4, 1, 1⟩

/-- C2: user 1 spent 920 in 2024-03 against a limit of 1000. -/
def c2db : DB :=
  ⟨[⟨1, 1, 920, "Food", some ⟨2024, 3, 10⟩, ""⟩],
   [⟨1, 1, "2024-03", 1000⟩], [], 2, 2, 1⟩

/-- C3: an empty store. -/
def c3db : DB := ⟨[], [], [], 1, 1, 1⟩

/-- C4: an empty store. -/
def c4db : DB := ⟨[], [], [], 1, 1, 1⟩

/-- C5: expense 1 and category 1 are owned by user 2. -/
def c5db : DB :=
  ⟨[⟨1, 2, 50, "Food", some ⟨2024, 1, 5⟩, ""⟩], [], [⟨1, 2, "Own"⟩], 2, 1, 2⟩

/-- C6: two expenses of user 1. -/
def c6db : DB :=
  ⟨[⟨1, 1, 100, "Shopping", some ⟨2024, 1, 10⟩, "Old"⟩,
    ⟨2, 1, 7, "Misc", some ⟨2024, 2, 2⟩, "keep"⟩], [], [], 3, 1, 1⟩

/-- C7 counterexample: user 1 has a single dateless expense. -/
def c7db : DB := ⟨[⟨1, 1, 5, "Food", none, ""⟩], [], [], 2, 1, 1⟩

/-- C7 witness: three dated expenses with a date tie. -/
def c7wdb : DB :=
  ⟨[⟨1, 1, 10, "A", some ⟨2024, 1, 5⟩, ""⟩,
    ⟨2, 1, 20, "B", some ⟨2024, 2, 1⟩, ""⟩,
    ⟨3, 1, 30, "C", some ⟨2024, 1, 5⟩, ""⟩], [], [], 4, 1, 1⟩

/-- C8: an empty store. -/
def c8db : DB := ⟨[], [], [], 1, 1, 1⟩

/-- C9: a store where user 1 has no category rows yet. -/
def c9db : DB := ⟨[], [], [], 1, 1, 1⟩

/-- C10: user 1 has a dated and a dateless expense. -/
def c10db : DB :=
  ⟨[⟨1, 1, 10, "Food", some ⟨2024, 1, 5⟩, ""⟩,
    ⟨2, 1, 99, "Food", none, ""⟩], [], [], 3, 1, 1⟩

/- ---------------------------------------------------------------------
   Theorems.
   --------------------------------------------------------------------- -/

/-- C3: the add-expense date check is done with `datetime.fromisoformat`
while `save_expense` re-parses with `date.fromisoformat`. The supplied
date "2024-01-05T10:30" does not parse as an ISO calendar date, yet the
operation does not fail with InvalidDate: validation accepts it and the
storage parse raises an unhandled ValueError (HTTP 500). -/
theorem c3_datetime_validation_bug :
    dateFromIsoformat "2024-01-05T10:30" = none ∧
    datetimeFromIsoformatOk "2024-01-05T10:30" = true ∧
    api_add_expense c3db 1 ⟨some (.num 50), none, none, some "2024-01-05T10:30"⟩ ⟨2024, 6, 1⟩
      = (.storageFailure, c3db) := by
  refine ⟨by decide, by decide, by decide⟩

/-- C10: the dateless expense (id 2) passes the in_range filter for the
supplied bounds, but because user 1 also owns a dated expense the final
sort compares a None key with a string key and raises TypeError, so the
listing fails instead of returning the dateless row after the dated one. -/
theorem c10_dateless_sort_bug :
    in_range (Expense.toRow ⟨2, 1, 99, "Food", none, ""⟩)
        (some "2020-01-01") (some "2030-01-01") = true ∧
    api_list_expenses c10db 1 none (some "2020-01-01") (some "2030-01-01")
      = .error .typeErr := by
  refine ⟨by decide, by decide⟩

/-- C1 counterexample: on the spec's own example data the returned mapping
is not exactly {"2024-01": 30.0}; the dateless expense is not excluded but
aggregated under the empty-string key (99.0 at key ""). -/
theorem c1_monthly_totals_counterexample :
    monthlyTotal c1db 1 "" = some 99 ∧
    ¬ (∀ k : String, monthlyTotal c1db 1 k
          = if k = "2024-01" then some (30 : Rat) else none) := by
  have h0 : monthlyTotal c1db 1 "" = some 99 := by with_unfolding_all decide
  refine ⟨h0, fun h => ?_⟩
  have h2 := h ""
  rw [h0, if_neg (by decide : ¬("" : String) = "2024-01")] at h2
  exact Option.noConfusion h2

/-- One unfolding step of charListLt on cons cells. -/
theorem charListLt_cons_iff (a b : Char) (as bs : List Char) :
    charListLt (a :: as) (b :: bs) = true ↔ a < b ∨ (a = b ∧ charListLt as bs = true) := by
  show (if a < b then true else if a == b then charListLt as bs else false) = true ↔ _
  by_cases h1 : a < b
  · simp [h1]
  · by_cases h2 : a = b
    · simp [h1, h2]
    · simp [h1, h2]

theorem charListLt_irrefl : ∀ a : List Char, charListLt a a = false
  | [] => rfl
  | c :: cs => by
    rw [show charListLt (c :: cs) (c :: cs)
          = (if c < c then true else if c == c then charListLt cs cs else false) from rfl]
    simp [charListLt_irrefl cs]

theorem charListLt_trans : ∀ {a b c : List Char},
    charListLt a b = true → charListLt b c = true → charListLt a c = true
  | [], [], _, h1, _ => by cases h1
  | [], _ :: _, [], _, h2 => by cases h2
  | [], _ :: _, _ :: _, _, _ => rfl
  | _ :: _, [], _, h1, _ => by cases h1
  | _ :: _, _ :: _, [], _, h2 => by cases h2
  | a :: as, b :: bs, c :: cs, h1, h2 => by
    rw [charListLt_cons_iff] at h1 h2 ⊢
    rcases h1 with h1 | ⟨rfl, h1⟩
    · rcases h2 with h2 | ⟨rfl, h2⟩
      · exact Or.inl (lt_trans h1 h2)
      · exact Or.inl h1
    · rcases h2 with h2 | ⟨rfl, h2⟩
      · exact Or.inl h2
      · exact Or.inr ⟨rfl, charListLt_trans h1 h2⟩

theorem charListLt_asymm {a b : List Char} (h1 : charListLt a b = true) :
    charListLt b a = false := by
  by_contra hc
  rw [Bool.not_eq_false] at hc
  have := charListLt_trans h1 hc
  rw [charListLt_irrefl a] at this
  cases this

theorem charListLt_connex : ∀ {a b : List Char},
    charListLt a b = false → charListLt b a = false → a = b
  | [], [], _, _ => rfl
  | [], _ :: _, h1, _ => by cases h1
  | _ :: _, [], _, h2 => by cases h2
  | a :: as, b :: bs, h1, h2 => by
    have h1a : ¬ charListLt (a :: as) (b :: bs) = true := by rw [h1]; exact Bool.false_ne_true
    have h2a : ¬ charListLt (b :: bs) (a :: as) = true := by rw [h2]; exact Bool.false_ne_true
    rw [charListLt_cons_iff] at h1a h2a
    push_neg at h1a h2a
    rcases lt_trichotomy a b with h | h | h
    · exact absurd h (not_lt.mpr h1a.1)
    · subst h
      have e1 : charListLt as bs = false := Bool.eq_false_iff.mpr (h1a.2 rfl)
      have e2 : charListLt bs as = false := Bool.eq_false_iff.mpr (h2a.2 rfl)
      rw [charListLt_connex e1 e2]
    · exact absurd h (not_lt.mpr h2a.1)

theorem pyStrLt_trans {a b c : String} (h1 : pyStrLt a b = true) (h2 : pyStrLt b c = true) :
    pyStrLt a c = true :=
  charListLt_trans h1 h2

theorem pyStrLt_asymm {a b : String} (h1 : pyStrLt a b = true) : pyStrLt b a = false :=
  charListLt_asymm h1

theorem pyStrLt_connex {a b : String} (h1 : pyStrLt a b = false) (h2 : pyStrLt b a = false) :
    a = b := by
  have hdata : a.data = b.data := charListLt_connex (a := a.toList) (b := b.toList) h1 h2
  cases a
  cases b
  cases hdata
  rfl

theorem lookup_addToGroup (acc : List (Option String × Rat)) (k : Option String) (a : Rat)
    (k2 : Option String) :
    (addToGroup acc k a).lookup k2 =
      if k2 = k then
        (match acc.lookup k2 with
         | some s => some (s + a)
         | none => some a)
      else acc.lookup k2 := by
  induction acc with
  | nil =>
    by_cases h : k2 = k
    · simp [addToGroup, List.lookup, h]
    · simp [addToGroup, List.lookup, h, beq_false_of_ne h]
  | cons p rest ih =>
    obtain ⟨k3, s⟩ := p
    by_cases h3 : k3 = k
    · subst h3
      by_cases h2 : k2 = k3
      · subst h2
        simp [addToGroup, List.lookup]
      · simp [addToGroup, List.lookup, beq_false_of_ne h2, h2]
    · by_cases h2 : k2 = k3
      · subst h2
        simp [addToGroup, List.lookup, beq_false_of_ne h3,
          if_neg (fun hc : k2 = k => h3 hc)]
      · simp [addToGroup, List.lookup, beq_false_of_ne h3, beq_false_of_ne h2, ih]

theorem lookup_cons {α β : Type} [BEq α] (a k : α) (b : β) (es : List (α × β)) :
    ((k, b) :: es).lookup a = if a == k then some b else es.lookup a := by
  cases h : a == k <;> simp [List.lookup, h]

theorem lookup_groupSum_go :
    ∀ (rows : List (Option String × Rat)) (acc : List (Option String × Rat))
      (k2 : Option String),
    (rows.foldl (fun acc r => addToGroup acc r.1 r.2) acc).lookup k2 =
      match acc.lookup k2 with
      | some v => some (v + ((rows.filter (fun r => r.1 == k2)).map (fun r => r.2)).sum)
      | none =>
        if (rows.filter (fun r => r.1 == k2)).isEmpty then none
        else some ((rows.filter (fun r => r.1 == k2)).map (fun r => r.2)).sum
  | [], acc, k2 => by
    cases h : acc.lookup k2 <;> simp [h]
  | r :: rs, acc, k2 => by
    rw [List.foldl_cons, lookup_groupSum_go rs (addToGroup acc r.1 r.2) k2,
      lookup_addToGroup]
    by_cases hk : (r.1 : Option String) = k2
    · have hb : (r.1 == k2) = true := beq_iff_eq.mpr hk
      rw [if_pos hk.symm, List.filter_cons, if_pos hb]
      cases h : acc.lookup k2 with
      | none =>
        simp only [h, List.map_cons, List.sum_cons, List.isEmpty_cons]
        rw [if_neg (fun hc => Bool.false_ne_true hc)]
      | some v =>
        simp only [h, List.map_cons, List.sum_cons]
        rw [add_assoc]
    · have hb : (r.1 == k2) = false := beq_false_of_ne hk
      rw [if_neg (fun hc : k2 = r.1 => hk hc.symm), List.filter_cons,
        if_neg (show ¬((r.1 == k2) = true) by
          rw [hb]; exact Bool.false_ne_true)]

theorem lookup_groupSum (rows : List (Option String × Rat)) (k2 : Option String) :
    (groupSum rows).lookup k2 =
      if (rows.filter (fun r => r.1 == k2)).isEmpty then none
      else some ((rows.filter (fun r => r.1 == k2)).map (fun r => r.2)).sum := by
  rw [groupSum, lookup_groupSum_go rows [] k2]
  simp [List.lookup]

theorem mem_keys_addToGroup :
    ∀ (acc : List (Option String × Rat)) (k : Option String) (a : Rat)
      (p : Option String × Rat),
    p ∈ addToGroup acc k a → p.1 = k ∨ p.1 ∈ acc.map Prod.fst
  | [], k, a, p, hp => by
    simp [addToGroup] at hp
    exact Or.inl (by rw [hp])
  | (k3, s) :: rest, k, a, p, hp => by
    by_cases h3 : (k3 == k) = true
    · rw [show addToGroup ((k3, s) :: rest) k a = (k3, s + a) :: rest from by
          simp [addToGroup, h3]] at hp
      rcases List.mem_cons.mp hp with h | h
      · subst h
        rw [List.map_cons]
        exact Or.inr (List.mem_cons_self _ _)
      · rw [List.map_cons]
        exact Or.inr (List.mem_cons_of_mem _ (List.mem_map_of_mem Prod.fst h))
    · rw [show addToGroup ((k3, s) :: rest) k a = (k3, s) :: addToGroup rest k a from by
          simp [addToGroup, h3]] at hp
      rcases List.mem_cons.mp hp with h | h
      · subst h
        rw [List.map_cons]
        exact Or.inr (List.mem_cons_self _ _)
      · rcases mem_keys_addToGroup rest k a p h with h2 | h2
        · exact Or.inl h2
        · rw [List.map_cons]
          exact Or.inr (List.mem_cons_of_mem _ h2)

theorem mem_keys_groupSum_go :
    ∀ (rows acc : List (Option String × Rat)) (p : Option String × Rat),
    p ∈ rows.foldl (fun acc r => addToGroup acc r.1 r.2) acc →
    p.1 ∈ acc.map Prod.fst ∨ p.1 ∈ rows.map Prod.fst
  | [], _, p, hp => Or.inl (List.mem_map_of_mem Prod.fst hp)
  | r :: rs, acc, p, hp => by
    rw [List.foldl_cons] at hp
    rcases mem_keys_groupSum_go rs (addToGroup acc r.1 r.2) p hp with h | h
    · rcases List.mem_map.mp h with ⟨q, hq, hq2⟩
      rcases mem_keys_addToGroup acc r.1 r.2 q hq with h2 | h2
      · refine Or.inr ?_
        rw [← hq2, h2, List.map_cons]
        exact List.mem_cons_self _ _
      · exact Or.inl (hq2 ▸ h2)
    · refine Or.inr ?_
      rw [List.map_cons]
      exact List.mem_cons_of_mem _ h

theorem ym_ne_empty (d : PyDate) : PyDate.ym d ≠ "" := by
  intro h
  have h2 : (pad4 d.year ++ "-" ++ pad2 d.month).data = ([] : List Char) :=
    congrArg String.data h
  rw [String.data_append, String.data_append] at h2
  rcases List.append_eq_nil.mp h2 with ⟨h3, _⟩
  rcases List.append_eq_nil.mp h3 with ⟨_, h4⟩
  exact absurd h4 (by decide)

theorem monthKey_match (e : Expense) (k : String) :
    ((e.date.map PyDate.ym) == (if k = "" then none else some k)) = (monthKeyStr e == k) := by
  cases hd : e.date with
  | none =>
    by_cases hk : k = ""
    · simp [monthKeyStr, hd, hk]
    · simp [monthKeyStr, hd, hk, beq_false_of_ne (Ne.symm hk)]
  | some d =>
    by_cases hk : k = ""
    · subst hk
      simp [monthKeyStr, hd, ym_ne_empty d]
    · simp [monthKeyStr, hd, hk]

theorem lookup_map_getD (l : List (Option String × Rat))
    (hl : ∀ p ∈ l, p.1 ≠ some "") (k : String) :
    (l.map (fun p => (p.1.getD "", p.2))).lookup k
      = l.lookup (if k = "" then none else some k) := by
  induction l with
  | nil => rfl
  | cons p rest ih =>
    obtain ⟨ko, v⟩ := p
    have hko : ko ≠ some "" := hl (ko, v) (List.mem_cons_self _ _)
    have ihr := ih (fun q hq => hl q (List.mem_cons_of_mem _ hq))
    cases ko with
    | none =>
      by_cases hk : k = ""
      · subst hk
        simp [List.map_cons, lookup_cons]
      · simp [List.map_cons, lookup_cons, hk, beq_false_of_ne hk, ihr]
    | some s =>
      have hs : s ≠ "" := fun hc => hko (by rw [hc])
      by_cases hk : k = s
      · subst hk
        simp [List.map_cons, lookup_cons, if_neg hs]
      · by_cases hke : k = ""
        · subst hke
          have hns : ((none : Option String) == some s) = false :=
            beq_false_of_ne (fun h => Option.noConfusion h)
          simp [List.map_cons, lookup_cons, beq_false_of_ne (Ne.symm hs), hns, ihr]
        · have h1 : (k == s) = false := beq_false_of_ne hk
          have h2 : ((some k : Option String) == some s) = false :=
            beq_false_of_ne (fun hc => hk (Option.some.inj hc))
          simp [List.map_cons, lookup_cons, hke, h1, h2, ihr]

theorem rows_filter_eq (l : List Expense) (u : Nat) (k : String) :
    ((l.filter (fun e => e.user_id == u)).map
        (fun e => (e.date.map PyDate.ym, e.amount))).filter
        (fun r => r.1 == (if k = "" then none else some k))
      = (l.filter (fun e => e.user_id == u && monthKeyStr e == k)).map
          (fun e => (e.date.map PyDate.ym, e.amount)) := by
  induction l with
  | nil => rfl
  | cons e es ih =>
    by_cases hu : (e.user_id == u) = true
    · by_cases hm : (monthKeyStr e == k) = true
      · have hkey : ((e.date.map PyDate.ym, e.amount).1
            == (if k = "" then none else some k)) = true := by
          rw [show ((e.date.map PyDate.ym, e.amount).1 : Option String)
                = e.date.map PyDate.ym from rfl, monthKey_match, hm]
        rw [List.filter_cons, if_pos hu, List.map_cons,
          List.filter_cons, if_pos hkey,
          List.filter_cons, if_pos (show (e.user_id == u && (monthKeyStr e == k)) = true by
            rw [hu, hm]; rfl),
          List.map_cons, ih]
      · have hm2 : (monthKeyStr e == k) = false := by
          rw [← Bool.not_eq_true]; exact hm
        have hkey : ((e.date.map PyDate.ym, e.amount).1
            == (if k = "" then none else some k)) = false := by
          rw [show ((e.date.map PyDate.ym, e.amount).1 : Option String)
                = e.date.map PyDate.ym from rfl, monthKey_match, hm2]
        rw [List.filter_cons, if_pos hu, List.map_cons,
          List.filter_cons, if_neg (by rw [hkey]; exact Bool.false_ne_true),
          List.filter_cons, if_neg (show ¬((e.user_id == u && (monthKeyStr e == k)) = true) by
            rw [hu, hm2]; exact fun hc => Bool.false_ne_true hc),
          ih]
    · have hu2 : (e.user_id == u) = false := by
        rw [← Bool.not_eq_true]; exact hu
      rw [List.filter_cons, if_neg (show ¬((e.user_id == u) = true) by
          rw [hu2]; exact Bool.false_ne_true),
        List.filter_cons, if_neg (show ¬((e.user_id == u && (monthKeyStr e == k)) = true) by
          rw [hu2]; exact fun hc => Bool.false_ne_true hc),
        ih]

/-- C1 amended: monthly_totals groups a user's expenses by the first seven
characters of the ISO date and sums amounts per group, but an expense with
no date is not excluded: the NULL group is keyed by the empty string "". -/
theorem c1_monthly_totals_grouping (db : DB) (u : Nat) (k : String) :
    monthlyTotal db u k =
      (if (db.expenses.filter (fun e => e.user_id == u && monthKeyStr e == k)).isEmpty
       then none
       else some ((db.expenses.filter
              (fun e => e.user_id == u && monthKeyStr e == k)).map
            (fun e => e.amount)).sum) := by
  have hkeys : ∀ p ∈ groupSum ((db.expenses.filter (fun e => e.user_id == u)).map
      (fun e => (e.date.map PyDate.ym, e.amount))), p.1 ≠ some "" := by
    intro p hp hps
    rcases mem_keys_groupSum_go _ [] p hp with h | h
    · simp at h
    · rcases List.mem_map.mp h with ⟨q, hq, hq2⟩
      rcases List.mem_map.mp hq with ⟨e, _, he2⟩
      rw [← he2] at hq2
      have hq3 : e.date.map PyDate.ym = some "" := by rw [← hps]; exact hq2
      cases hde : e.date with
      | none => rw [hde] at hq3; cases hq3
      | some d =>
        rw [hde] at hq3
        exact ym_ne_empty d (Option.some.inj hq3)
  rw [monthlyTotal, monthly_totals, lookup_map_getD _ hkeys k, lookup_groupSum,
    rows_filter_eq]
  cases hl : db.expenses.filter (fun e => e.user_id == u && monthKeyStr e == k) with
  | nil => rfl
  | cons x xs =>
    have h1 : ¬(((x :: xs).map
        (fun e => (e.date.map PyDate.ym, e.amount))).isEmpty = true) :=
      fun hc => Bool.false_ne_true hc
    have h2 : ¬((x :: xs : List Expense).isEmpty = true) :=
      fun hc => Bool.false_ne_true hc
    rw [if_neg h1, if_neg h2, List.map_map]
    rfl

theorem get_budget_none_filter {db : DB} {u : Nat} {m : String}
    (h : get_budget db u m = .ok none) :
    db.budgets.filter (fun x => x.user_id == u && x.month == m) = [] := by
  rcases hf : db.budgets.filter (fun x => x.user_id == u && x.month == m) with _ | ⟨x, xs⟩
  · exact hf
  · rcases xs with _ | ⟨y, ys⟩
    · simp only [get_budget, hf] at h
      exact Option.noConfusion (Except.ok.inj h)
    · simp only [get_budget, hf] at h
      exact Except.noConfusion h

theorem get_budget_some_filter {db : DB} {u : Nat} {m : String} {b : Budget}
    (h : get_budget db u m = .ok (some b)) :
    db.budgets.filter (fun x => x.user_id == u && x.month == m) = [b] := by
  rcases hf : db.budgets.filter (fun x => x.user_id == u && x.month == m) with _ | ⟨x, xs⟩
  · simp only [get_budget, hf] at h
    exact Option.noConfusion (Except.ok.inj h)
  · rcases xs with _ | ⟨y, ys⟩
    · simp only [get_budget, hf] at h
      have hxb : x = b := Option.some.inj (Except.ok.inj h)
      rw [← hxb]
      exact hf
    · simp only [get_budget, hf] at h
      exact Except.noConfusion h

theorem get_budget_some_mem {db : DB} {u : Nat} {m : String} {b : Budget}
    (h : get_budget db u m = .ok (some b)) :
    b ∈ db.budgets ∧ b.user_id = u ∧ b.month = m := by
  have hf := get_budget_some_filter h
  have hb : b ∈ db.budgets.filter (fun x => x.user_id == u && x.month == m) := by
    rw [hf]; exact List.mem_singleton_self b
  rcases List.mem_filter.mp hb with ⟨hmem, hcond⟩
  simp only [Bool.and_eq_true, beq_iff_eq] at hcond
  exact ⟨hmem, hcond.1, hcond.2⟩

/-- C2: with spent the user's monthly total for the month (0.0 when
absent), get_budget_status returns the no_budget shape when no budget row
exists, and otherwise remaining = max(limit - spent, 0) and status "over"
when spent > limit, "warning" when spent ≤ limit and spent/limit ≥ 0.9,
else "ok". The hypothesis is the write-time invariant that stored limits
are strictly positive. -/
theorem c2_get_budget_status (db : DB) (u : Nat) (m : String)
    (hpos : ∀ b ∈ db.budgets, b.user_id = u → b.month = m → 0 < b.limit_amount) :
    (get_budget db u m = .ok none →
      get_budget_status db u m
        = .ok ⟨m, none, (monthlyTotal db u m).getD 0, none, "no_budget"⟩) ∧
    (∀ b, get_budget db u m = .ok (some b) →
      get_budget_status db u m
        = .ok ⟨m, some b.limit_amount, (monthlyTotal db u m).getD 0,
            some (max (b.limit_amount - (monthlyTotal db u m).getD 0) 0),
            if (monthlyTotal db u m).getD 0 > b.limit_amount then "over"
            else if (monthlyTotal db u m).getD 0 / b.limit_amount ≥ 9 / 10 then "warning"
            else "ok"⟩) := by
  constructor
  · intro h
    simp only [get_budget_status, h]
  · intro b h
    rcases get_budget_some_mem h with ⟨hmem, hu, hm⟩
    have hb_pos : 0 < b.limit_amount := hpos b hmem hu hm
    simp only [get_budget_status, h]
    rw [if_neg (not_le.mpr hb_pos), if_pos hb_pos]

/-- C2 witness: limit 1000 and spent 920 classify as "warning" with
remaining 80. -/
theorem c2_get_budget_status_witness :
    get_budget c2db 1 "2024-03" = .ok (some ⟨1, 1, "2024-03", 1000⟩) ∧
    get_budget_status c2db 1 "2024-03"
      = .ok ⟨"2024-03", some 1000, 920, some 80, "warning"⟩ := by
  have hpos : ∀ b ∈ c2db.budgets, b.user_id = 1 → b.month = "2024-03" →
      0 < b.limit_amount := by
    intro b hb _ _
    have hb2 : b = (⟨1, 1, "2024-03", 1000⟩ : Budget) := List.mem_singleton.mp hb
    rw [hb2]
    with_unfolding_all decide
  have hget : get_budget c2db 1 "2024-03" = .ok (some ⟨1, 1, "2024-03", 1000⟩) := by decide
  have h := (c2_get_budget_status c2db 1 "2024-03" hpos).2 ⟨1, 1, "2024-03", 1000⟩ hget
  have hspent : (monthlyTotal c2db 1 "2024-03").getD 0 = (920 : Rat) := by decide
  rw [hspent] at h
  rw [if_neg (show ¬((920 : Rat) > 1000) by with_unfolding_all decide),
    if_pos (show (920 : Rat) / 1000 ≥ 9 / 10 by with_unfolding_all decide),
    show max ((1000 : Rat) - 920) 0 = 80 by with_unfolding_all decide] at h
  exact ⟨hget, h⟩

theorem filter_eq_single_decomp {α : Type} {p : α → Bool} :
    ∀ {l : List α} {b : α}, l.filter p = [b] →
    ∃ l1 l2, l = l1 ++ b :: l2 ∧ (∀ y ∈ l1, p y = false) ∧ (∀ y ∈ l2, p y = false)
  | [], b, h => by exact List.noConfusion h
  | x :: xs, b, h => by
    cases px : p x with
    | true =>
      rw [List.filter_cons, if_pos px] at h
      have hx : x = b := (List.cons.inj h).1
      have hxs : xs.filter p = [] := (List.cons.inj h).2
      refine ⟨[], xs, by rw [hx]; rfl, fun y hy => absurd hy (List.not_mem_nil y), ?_⟩
      intro y hy
      exact Bool.eq_false_iff.mpr (List.filter_eq_nil_iff.mp hxs y hy)
    | false =>
      rw [List.filter_cons, if_neg (by rw [px]; exact Bool.false_ne_true)] at h
      rcases filter_eq_single_decomp h with ⟨l1, l2, he, h1, h2⟩
      refine ⟨x :: l1, l2, by rw [List.cons_append, he], ?_, h2⟩
      intro y hy
      rcases List.mem_cons.mp hy with rfl | hy2
      · exact px
      · exact h1 y hy2

theorem replaceFirstBy_skip {α : Type} {p : α → Bool} {x b : α} :
    ∀ {l1 : List α} (l2 : List α), (∀ y ∈ l1, p y = false) → p b = true →
    replaceFirstBy p x (l1 ++ b :: l2) = l1 ++ x :: l2
  | [], l2, _, hb => by simp [replaceFirstBy, hb]
  | y :: ys, l2, h1, hb => by
    have hy : p y = false := h1 y (List.mem_cons_self _ _)
    rw [List.cons_append,
      show replaceFirstBy p x (y :: (ys ++ b :: l2))
        = y :: replaceFirstBy p x (ys ++ b :: l2) from by simp [replaceFirstBy, hy],
      replaceFirstBy_skip l2 (fun z hz => h1 z (List.mem_cons_of_mem _ hz)) hb,
      List.cons_append]

theorem pairwise_replace_middle {α : Type} {R : α → α → Prop} {l1 l2 : List α} {b x : α}
    (h : (l1 ++ b :: l2).Pairwise R)
    (h1 : ∀ z, R b z → R x z) (h2 : ∀ z, R z b → R z x) :
    (l1 ++ x :: l2).Pairwise R := by
  rw [List.pairwise_append] at h ⊢
  rcases h with ⟨ha, hb, hcross⟩
  rw [List.pairwise_cons] at hb
  refine ⟨ha, ?_, ?_⟩
  · rw [List.pairwise_cons]
    exact ⟨fun z hz => h1 z (hb.1 z hz), hb.2⟩
  · intro a hal y hy
    rcases List.mem_cons.mp hy with rfl | hy2
    · exact h2 a (hcross a hal b (List.mem_cons_self _ _))
    · exact hcross a hal y (List.mem_cons_of_mem _ hy2)

theorem upsert_found {db : DB} {u : Nat} {m : String} {b : Budget} (q : Rat)
    (hget : get_budget db u m = .ok (some b)) :
    ∃ l1 l2,
      db.budgets = l1 ++ b :: l2 ∧
      upsert_budget db u m q
        = .ok ({b with limit_amount := q},
            { db with budgets := l1 ++ {b with limit_amount := q} :: l2 }) ∧
      (∀ y ∈ l1, (y.user_id == u && y.month == m) = false) ∧
      (∀ y ∈ l2, (y.user_id == u && y.month == m) = false) := by
  have hf := get_budget_some_filter hget
  rcases filter_eq_single_decomp hf with ⟨l1, l2, he, h1, h2⟩
  have hpb : (b.user_id == u && b.month == m) = true := by
    rcases get_budget_some_mem hget with ⟨_, hu, hm⟩
    rw [hu, hm]
    simp
  refine ⟨l1, l2, he, ?_, h1, h2⟩
  simp only [upsert_budget, hget]
  rw [he, replaceFirstBy_skip l2 h1 hpb]

theorem upsert_preserves_WF {db db2 : DB} {u : Nat} {m : String} {q : Rat} {r : Budget}
    (hwf : budgetsWF db) (h : upsert_budget db u m q = .ok (r, db2)) :
    budgetsWF db2 := by
  cases hg : get_budget db u m with
  | error e =>
    simp only [upsert_budget, hg] at h
    exact Except.noConfusion h
  | ok ob =>
    cases ob with
    | some b =>
      rcases upsert_found q hg with ⟨l1, l2, he, hup, h1, h2⟩
      rw [hup] at h
      have hpair := Prod.mk.inj (Except.ok.inj h)
      have hdb2 : db2 = { db with budgets := l1 ++ {b with limit_amount := q} :: l2 } :=
        hpair.2.symm
      subst hdb2
      rcases hwf with ⟨hids, hbound, hkeys⟩
      rw [he] at hids hbound hkeys
      refine ⟨?_, ?_, ?_⟩
      · exact pairwise_replace_middle hids (fun z hz => hz) (fun z hz => hz)
      · intro x hx
        rcases List.mem_append.mp hx with hx1 | hx2
        · exact hbound x (List.mem_append.mpr (Or.inl hx1))
        · rcases List.mem_cons.mp hx2 with rfl | hx3
          · exact hbound b (List.mem_append.mpr (Or.inr (List.mem_cons_self _ _)))
          · exact hbound x (List.mem_append.mpr (Or.inr (List.mem_cons_of_mem _ hx3)))
      · exact pairwise_replace_middle hkeys (fun z hz => hz) (fun z hz => hz)
    | none =>
      have hfil := get_budget_none_filter hg
      simp only [upsert_budget, hg] at h
      have hpair := Prod.mk.inj (Except.ok.inj h)
      have hdb2 : db2 = { db with
          budgets := db.budgets ++ [⟨db.next_budget_id, u, m, q⟩],
          next_budget_id := db.next_budget_id + 1 } := hpair.2.symm
      subst hdb2
      rcases hwf with ⟨hids, hbound, hkeys⟩
      refine ⟨?_, ?_, ?_⟩
      · rw [List.pairwise_append]
        refine ⟨hids, List.pairwise_singleton _ _, ?_⟩
        intro a ha y hy
        rw [List.mem_singleton.mp hy]
        exact Nat.ne_of_lt (hbound a ha)
      · intro x hx
        rcases List.mem_append.mp hx with hx1 | hx2
        · exact Nat.lt_succ_of_lt (hbound x hx1)
        · rw [List.mem_singleton.mp hx2]
          exact Nat.lt_succ_self _
      · rw [List.pairwise_append]
        refine ⟨hkeys, List.pairwise_singleton _ _, ?_⟩
        intro a ha y hy hc
        rw [List.mem_singleton.mp hy] at hc
        have := List.filter_eq_nil_iff.mp hfil a ha
        apply this
        rw [hc.1, hc.2]
        simp

theorem runBudgetOps_preserves_WF :
    ∀ (ops : List (Nat × String × Rat)) (db db2 : DB),
    budgetsWF db → runBudgetOps db ops = .ok db2 → budgetsWF db2
  | [], db, db2, hwf, h => by
    simp only [runBudgetOps] at h
    exact (Except.ok.inj h) ▸ hwf
  | op :: rest, db, db2, hwf, h => by
    obtain ⟨u, m, q⟩ := op
    simp only [runBudgetOps] at h
    cases hu : upsert_budget db u m q with
    | error e => rw [hu] at h; exact Except.noConfusion h
    | ok pr =>
      obtain ⟨r, dbm⟩ := pr
      rw [hu] at h
      exact runBudgetOps_preserves_WF rest dbm db2 (upsert_preserves_WF hwf hu) h

/-- C4: (a) any sequence of set-budget operations preserves well-formedness
of the budgets table, in particular the at-most-one-row-per-(user_id, month)
invariant; (b) setting a budget for a month that already has one overwrites
limit_amount on the existing row: the row count for that user and month
stays 1, the table size is unchanged, and the stored limit is the value
just set; (c) setting it for a month with no row appends exactly one new
row. -/
theorem c4_upsert_budget :
    (∀ (db : DB) (ops : List (Nat × String × Rat)) (db2 : DB),
      budgetsWF db → runBudgetOps db ops = .ok db2 → budgetsWF db2) ∧
    (∀ (db : DB) (u : Nat) (m : String) (q : Rat) (b : Budget),
      get_budget db u m = .ok (some b) →
      ∃ db2, upsert_budget db u m q = .ok ({b with limit_amount := q}, db2) ∧
        budgetCount db2 u m = 1 ∧
        db2.budgets.length = db.budgets.length ∧
        get_budget db2 u m = .ok (some {b with limit_amount := q})) ∧
    (∀ (db : DB) (u : Nat) (m : String) (q : Rat),
      get_budget db u m = .ok none →
      ∃ r db2, upsert_budget db u m q = .ok (r, db2) ∧
        r.user_id = u ∧ r.month = m ∧ r.limit_amount = q ∧
        db2.budgets = db.budgets ++ [r] ∧
        budgetCount db2 u m = 1) := by
  refine ⟨fun db ops db2 => runBudgetOps_preserves_WF ops db db2, ?_, ?_⟩
  · intro db u m q b hget
    rcases upsert_found q hget with ⟨l1, l2, he, hup, h1, h2⟩
    refine ⟨_, hup, ?_, ?_, ?_⟩
    · have hb2 : (({b with limit_amount := q} : Budget).user_id == u
          && ({b with limit_amount := q} : Budget).month == m) = true := by
        rcases get_budget_some_mem hget with ⟨_, hu, hm⟩
        show (b.user_id == u && b.month == m) = true
        rw [hu, hm]
        simp
      show (List.filter _ (l1 ++ {b with limit_amount := q} :: l2)).length = 1
      rw [List.filter_append, List.filter_cons, if_pos hb2,
        List.filter_eq_nil_iff.mpr (fun a ha => by rw [h1 a ha]; exact Bool.false_ne_true),
        List.filter_eq_nil_iff.mpr (fun a ha => by rw [h2 a ha]; exact Bool.false_ne_true)]
      rfl
    · show (l1 ++ {b with limit_amount := q} :: l2).length = db.budgets.length
      rw [he, List.length_append, List.length_append, List.length_cons, List.length_cons]
    · have hb2 : (({b with limit_amount := q} : Budget).user_id == u
          && ({b with limit_amount := q} : Budget).month == m) = true := by
        rcases get_budget_some_mem hget with ⟨_, hu, hm⟩
        show (b.user_id == u && b.month == m) = true
        rw [hu, hm]
        simp
      have hfil2 : (l1 ++ {b with limit_amount := q} :: l2).filter
          (fun x => x.user_id == u && x.month == m) = [{b with limit_amount := q}] := by
        rw [List.filter_append, List.filter_cons, if_pos hb2,
          List.filter_eq_nil_iff.mpr (fun a ha => by rw [h1 a ha]; exact Bool.false_ne_true),
          List.filter_eq_nil_iff.mpr (fun a ha => by rw [h2 a ha]; exact Bool.false_ne_true)]
        rfl
      simp only [get_budget, hfil2]
  · intro db u m q hget
    have hfil := get_budget_none_filter hget
    refine ⟨⟨db.next_budget_id, u, m, q⟩,
      { db with budgets := db.budgets ++ [⟨db.next_budget_id, u, m, q⟩],
                next_budget_id := db.next_budget_id + 1 }, ?_, rfl, rfl, rfl, rfl, ?_⟩
    · simp only [upsert_budget, hget]
    · show (List.filter _ (db.budgets ++ [⟨db.next_budget_id, u, m, q⟩])).length = 1
      rw [List.filter_append, hfil, List.filter_cons, if_pos (by simp)]
      rfl

/-- C4 witness: from an empty store, setting the 2024-03 budget twice leaves
one well-formed row holding the last value. -/
theorem c4_upsert_budget_witness :
    ∃ db2, runBudgetOps c4db [(1, "2024-03", 500), (1, "2024-03", 1000)] = .ok db2 ∧
      budgetsWF db2 ∧ budgetCount db2 1 "2024-03" = 1 := by
  have hwf0 : budgetsWF c4db :=
    ⟨List.Pairwise.nil, fun b hb => absurd hb (List.not_mem_nil b), List.Pairwise.nil⟩
  have hrun : runBudgetOps c4db [(1, "2024-03", 500), (1, "2024-03", 1000)]
      = .ok ⟨[], [⟨1, 1, "2024-03", 1000⟩], [], 1, 2, 1⟩ := by decide
  refine ⟨_, hrun, c4_upsert_budget.1 c4db _ _ hwf0 hrun, by decide⟩

/-- C5: fetching, updating, or deleting an expense that does not exist or
is owned by another user, and deleting a category that does not exist or
is owned by another user, all produce the same not-found outcome with the
store untouched. The hypotheses cover the nonexistent id and the foreign
owner uniformly, so both cases yield the identical result. -/
theorem c5_ownership_not_found (db : DB) (req eid cid : Nat) (data : UpdateData)
    (hexp : ∀ e, find_expense db eid = some e → e.user_id ≠ req)
    (hcat : ∀ c, db.categories.find? (fun c => c.id == cid) = some c → c.user_id ≠ req) :
    api_get_expense db req eid = .notFound ∧
    api_update_expense db req eid data = (.notFound, db) ∧
    api_delete_expense db req eid = (.notFound, db) ∧
    delete_category db req cid = (false, db) := by
  refine ⟨?_, ?_, ?_, ?_⟩
  · cases hf : find_expense db eid with
    | none => simp [api_get_expense, hf]
    | some e =>
      have hne : (e.user_id != req) = true := bne_iff_ne.mpr (hexp e hf)
      simp [api_get_expense, hf, hne]
  · cases hf : find_expense db eid with
    | none => simp [api_update_expense, hf]
    | some e =>
      have hne : (e.user_id != req) = true := bne_iff_ne.mpr (hexp e hf)
      simp [api_update_expense, hf, hne]
  · cases hf : find_expense db eid with
    | none => simp [api_delete_expense, hf]
    | some e =>
      have hne : (e.user_id != req) = true := bne_iff_ne.mpr (hexp e hf)
      simp [api_delete_expense, hf, hne]
  · cases hc : db.categories.find? (fun c => c.id == cid) with
    | none => simp [delete_category, hc]
    | some c =>
      have hne : (c.user_id != req) = true := bne_iff_ne.mpr (hcat c hc)
      simp [delete_category, hc, hne]

/-- C5 witness: user 1 probing user 2's expense 1 and category 1. -/
theorem c5_ownership_not_found_witness :
    api_get_expense c5db 1 1 = .notFound ∧
    api_update_expense c5db 1 1 ⟨some (.num 5), none, none, none⟩ = (.notFound, c5db) ∧
    api_delete_expense c5db 1 1 = (.notFound, c5db) ∧
    delete_category c5db 1 1 = (false, c5db) := by
  have hfind : find_expense c5db 1 = some ⟨1, 2, 50, "Food", some ⟨2024, 1, 5⟩, ""⟩ := by
    decide
  have hcfind : c5db.categories.find? (fun c => c.id == 1) = some ⟨1, 2, "Own"⟩ := by
    decide
  refine c5_ownership_not_found c5db 1 1 1 _ ?_ ?_
  · intro e he
    rw [hfind] at he
    rw [← Option.some.inj he]
    decide
  · intro c hc
    rw [hcfind] at hc
    rw [← Option.some.inj hc]
    decide

theorem replaceFirstBy_length {α : Type} (p : α → Bool) (x : α) :
    ∀ l : List α, (replaceFirstBy p x l).length = l.length
  | [] => rfl
  | y :: ys => by
    by_cases h : p y = true
    · simp [replaceFirstBy, h]
    · simp [replaceFirstBy, h, replaceFirstBy_length p x ys]

theorem mem_replaceFirstBy_of_neg {α : Type} {p : α → Bool} {x y : α} :
    ∀ {l : List α}, y ∈ l → p y = false → y ∈ replaceFirstBy p x l
  | [], hy, _ => absurd hy (List.not_mem_nil y)
  | z :: zs, hy, hpy => by
    by_cases hz : p z = true
    · rw [show replaceFirstBy p x (z :: zs) = x :: zs from by simp [replaceFirstBy, hz]]
      rcases List.mem_cons.mp hy with rfl | h2
      · rw [hpy] at hz
        exact absurd hz (by simp)
      · exact List.mem_cons_of_mem _ h2
    · rw [show replaceFirstBy p x (z :: zs) = z :: replaceFirstBy p x zs from by
          simp [replaceFirstBy, hz]]
      rcases List.mem_cons.mp hy with rfl | h2
      · exact List.mem_cons_self _ _
      · exact List.mem_cons_of_mem _ (mem_replaceFirstBy_of_neg h2 hpy)

theorem find_replaceFirstBy_self {α : Type} {p : α → Bool} {x : α} (hx : p x = true) :
    ∀ {l : List α} {e : α}, l.find? p = some e → (replaceFirstBy p x l).find? p = some x
  | [], e, h => by simp at h
  | z :: zs, e, h => by
    by_cases hz : p z = true
    · rw [show replaceFirstBy p x (z :: zs) = x :: zs from by simp [replaceFirstBy, hz]]
      rw [List.find?_cons_of_pos _ hx]
    · rw [show replaceFirstBy p x (z :: zs) = z :: replaceFirstBy p x zs from by
          simp [replaceFirstBy, hz]]
      rw [List.find?_cons_of_neg _ hz]
      rw [List.find?_cons_of_neg _ hz] at h
      exact find_replaceFirstBy_self hx h

theorem applyUpdate_updated {db db2 : DB} {eid : Nat} {allowed : Updates} {row : Row}
    {e : Expense} (hf : find_expense db eid = some e)
    (h : applyUpdate db eid allowed = (.updated row, db2)) :
    ∃ e4 : Expense,
      row = e4.toRow ∧
      db2 = { db with expenses := replaceFirstBy (fun r => r.id == eid) e4 db.expenses } ∧
      e4.id = e.id ∧ e4.user_id = e.user_id ∧
      e4.amount = allowed.amount.getD e.amount ∧
      e4.category = allowed.category.getD e.category ∧
      e4.note = allowed.note.getD e.note ∧
      (allowed.date = none → e4.date = e.date) ∧
      (∀ s, allowed.date = some s → ∃ d, dateFromIsoformat s = some d ∧ e4.date = some d) := by
  by_cases hemp : allowed.isEmptyDict = true
  · rw [applyUpdate, if_pos hemp] at h
    exact absurd h (by simp)
  · rw [applyUpdate, if_neg hemp] at h
    obtain ⟨oa, oc, od, onote⟩ := allowed
    cases od with
    | none =>
      cases oa <;> cases oc <;> cases onote <;>
        · simp only [update_expense, hf] at h
          obtain ⟨h1, h2⟩ := Prod.mk.inj h
          exact ⟨_, (UpdateResult.updated.inj h1).symm, h2.symm, rfl, rfl, rfl, rfl, rfl,
            fun _ => rfl, fun s hs => Option.noConfusion hs⟩
    | some s =>
      by_cases hse : (s == "") = true
      · simp only [update_expense, hf, if_pos hse] at h
        exact absurd h (by simp)
      · cases hparse : dateFromIsoformat s with
        | none =>
          simp only [update_expense, hf, if_neg hse, hparse] at h
          exact absurd h (by simp)
        | some d =>
          cases oa <;> cases oc <;> cases onote <;>
            · simp only [update_expense, hf, if_neg hse, hparse] at h
              obtain ⟨h1, h2⟩ := Prod.mk.inj h
              refine ⟨_, (UpdateResult.updated.inj h1).symm, h2.symm, rfl, rfl, rfl, rfl, rfl,
                fun hc => Option.noConfusion hc, ?_⟩
              intro s2 hs2
              rw [← Option.some.inj hs2]
              exact ⟨d, hparse, rfl⟩

/-- C6: updating an existing owned expense applies only the supplied
fields from {amount, category, date, note}; unsupplied fields, id and
user_id are unchanged; a supplied amount was positive and a supplied date
parsed; an empty supplied set (after filtering to the recognized keys,
which the boundary layer does structurally) fails NoFieldsProvided; on
success the returned record is the full stored updated record and no
other row or table changes. -/
theorem c6_update_expense_frame (db : DB) (req eid : Nat) (data : UpdateData) (e : Expense)
    (hf : find_expense db eid = some e) (howner : e.user_id = req) :
    (data.amount = none ∧ data.category = none ∧ data.date = none ∧ data.note = none →
      api_update_expense db req eid data = (.noFields, db)) ∧
    (∀ row db2, api_update_expense db req eid data = (.updated row, db2) →
      row.id = e.id ∧ row.user_id = e.user_id ∧
      (data.amount = none → row.amount = e.amount) ∧
      (∀ v, data.amount = some v → ∃ q, v = AmountIn.num q ∧ 0 < q ∧ row.amount = q) ∧
      (data.category = none → row.category = e.category) ∧
      (∀ c, data.category = some c → row.category = c) ∧
      (data.date = none → row.date = e.date.map PyDate.isoformat) ∧
      (∀ s, data.date = some s → ∃ d, dateFromIsoformat s = some d ∧
        row.date = some (PyDate.isoformat d)) ∧
      (data.note = none → row.note = e.note) ∧
      (∀ n, data.note = some n → row.note = n) ∧
      db2.budgets = db.budgets ∧ db2.categories = db.categories ∧
      db2.next_expense_id = db.next_expense_id ∧
      db2.expenses.length = db.expenses.length ∧
      (∀ x ∈ db.expenses, x.id ≠ eid → x ∈ db2.expenses) ∧
      (∃ e2, find_expense db2 eid = some e2 ∧ row = e2.toRow)) := by
  have hf2 : db.expenses.find? (fun x => x.id == eid) = some e := hf
  have hpe := List.find?_some (p := fun x : Expense => x.id == eid) hf2
  have heid : e.id = eid := beq_iff_eq.mp hpe
  have hneq : (e.user_id != req) = false := by rw [howner]; simp
  obtain ⟨da, dc, dd, dn⟩ := data
  constructor
  · rintro ⟨ha, hc, hd, hn⟩
    simp only at ha hc hd hn
    subst ha
    subst hc
    subst hd
    subst hn
    simp [api_update_expense, hf, hneq, applyUpdate, Updates.isEmptyDict]
  · intro row db2 hres
    have main : ∀ allowed : Updates,
        applyUpdate db eid allowed = (.updated row, db2) →
        (allowed.amount = none → row.amount = e.amount) ∧
        (∀ q, allowed.amount = some q → row.amount = q) ∧
        (allowed.category = none → row.category = e.category) ∧
        (∀ c, allowed.category = some c → row.category = c) ∧
        (allowed.date = none → row.date = e.date.map PyDate.isoformat) ∧
        (∀ s, allowed.date = some s → ∃ d, dateFromIsoformat s = some d ∧
          row.date = some (PyDate.isoformat d)) ∧
        (allowed.note = none → row.note = e.note) ∧
        (∀ n, allowed.note = some n → row.note = n) ∧
        row.id = e.id ∧ row.user_id = e.user_id ∧
        db2.budgets = db.budgets ∧ db2.categories = db.categories ∧
        db2.next_expense_id = db.next_expense_id ∧
        db2.expenses.length = db.expenses.length ∧
        (∀ x ∈ db.expenses, x.id ≠ eid → x ∈ db2.expenses) ∧
        (∃ e2, find_expense db2 eid = some e2 ∧ row = e2.toRow) := by
      intro allowed hap
      rcases applyUpdate_updated hf hap with
        ⟨e4, hrow, hdb2, hid, huid, ham, hcat2, hnote2, hdn, hds⟩
      subst hrow
      subst hdb2
      have he4id : (e4.id == eid) = true := beq_iff_eq.mpr (hid.trans heid)
      refine ⟨?_, ?_, ?_, ?_, ?_, ?_, ?_, ?_, hid, huid, rfl, rfl, rfl,
        replaceFirstBy_length _ _ _, ?_,
        ⟨e4, find_replaceFirstBy_self (p := fun r : Expense => r.id == eid) he4id hf2, rfl⟩⟩
      · intro h
        show e4.amount = e.amount
        rw [ham, h]
        rfl
      · intro q h
        show e4.amount = q
        rw [ham, h]
        rfl
      · intro h
        show e4.category = e.category
        rw [hcat2, h]
        rfl
      · intro c h
        show e4.category = c
        rw [hcat2, h]
        rfl
      · intro h
        show e4.date.map PyDate.isoformat = e.date.map PyDate.isoformat
        rw [hdn h]
      · intro s h
        rcases hds s h with ⟨d, hd1, hd2⟩
        refine ⟨d, hd1, ?_⟩
        show e4.date.map PyDate.isoformat = some (PyDate.isoformat d)
        rw [hd2]
        rfl
      · intro h
        show e4.note = e.note
        rw [hnote2, h]
        rfl
      · intro n h
        show e4.note = n
        rw [hnote2, h]
        rfl
      · intro x hx hne
        exact mem_replaceFirstBy_of_neg hx (beq_false_of_ne hne)
    cases da with
    | some v =>
      cases v with
      | notNum =>
        simp only [api_update_expense, hf, hneq, Bool.false_eq_true, if_false] at hres
        exact absurd hres (by simp)
      | num q =>
        cases dd with
        | none =>
          simp only [api_update_expense, hf, hneq, Bool.false_eq_true, if_false] at hres
          by_cases hq : q ≤ 0
          · rw [if_pos hq] at hres
            exact absurd hres (by simp)
          · rw [if_neg hq] at hres
            rcases main _ hres with ⟨m1, m2, m3, m4, m5, m6, m7, m8, m9, m10, m11,
              m12, m13, m14, m15, m16⟩
            exact ⟨m9, m10, fun hc => Option.noConfusion hc,
              fun v hv => ⟨q, (Option.some.inj hv).symm, not_le.mp hq, m2 q rfl⟩,
              m3, m4, m5, m6, m7, m8, m11, m12, m13, m14, m15, m16⟩
        | some s =>
          simp only [api_update_expense, hf, hneq, Bool.false_eq_true, if_false] at hres
          by_cases hq : q ≤ 0
          · rw [if_pos hq] at hres
            exact absurd hres (by simp)
          · rw [if_neg hq] at hres
            by_cases hok : datetimeFromIsoformatOk s = true
            · rw [if_pos hok] at hres
              rcases main _ hres with ⟨m1, m2, m3, m4, m5, m6, m7, m8, m9, m10, m11,
                m12, m13, m14, m15, m16⟩
              exact ⟨m9, m10, fun hc => Option.noConfusion hc,
                fun v hv => ⟨q, (Option.some.inj hv).symm, not_le.mp hq, m2 q rfl⟩,
                m3, m4, fun hc => Option.noConfusion hc,
                fun s2 hs2 => (Option.some.inj hs2) ▸ m6 s rfl,
                m7, m8, m11, m12, m13, m14, m15, m16⟩
            · rw [if_neg hok] at hres
              exact absurd hres (by simp)
    | none =>
      cases dd with
      | none =>
        simp only [api_update_expense, hf, hneq, Bool.false_eq_true, if_false] at hres
        rcases main _ hres with ⟨m1, m2, m3, m4, m5, m6, m7, m8, m9, m10, m11,
          m12, m13, m14, m15, m16⟩
        exact ⟨m9, m10, fun _ => m1 rfl, fun v hv => Option.noConfusion hv,
          m3, m4, m5, m6, m7, m8, m11, m12, m13, m14, m15, m16⟩
      | some s =>
        simp only [api_update_expense, hf, hneq, Bool.false_eq_true, if_false] at hres
        by_cases hok : datetimeFromIsoformatOk s = true
        · rw [if_pos hok] at hres
          rcases main _ hres with ⟨m1, m2, m3, m4, m5, m6, m7, m8, m9, m10, m11,
            m12, m13, m14, m15, m16⟩
          exact ⟨m9, m10, fun _ => m1 rfl, fun v hv => Option.noConfusion hv,
            m3, m4, fun hc => Option.noConfusion hc,
            fun s2 hs2 => (Option.some.inj hs2) ▸ m6 s rfl,
            m7, m8, m11, m12, m13, m14, m15, m16⟩
        · rw [if_neg hok] at hres
          exact absurd hres (by simp)

set_option maxRecDepth 8000 in
/-- C6 witness: supplying amount 150 and note "New" to expense 1 updates
exactly those two fields, and the returned record is the stored one. -/
theorem c6_update_expense_frame_witness :
    api_update_expense c6db 1 1 ⟨some (.num 150), none, none, some "New"⟩
      = (.updated ⟨1, 1, 150, "Shopping", some "2024-01-10", "New"⟩,
         ⟨[⟨1, 1, 150, "Shopping", some ⟨2024, 1, 10⟩, "New"⟩,
           ⟨2, 1, 7, "Misc", some ⟨2024, 2, 2⟩, "keep"⟩], [], [], 3, 1, 1⟩) ∧
    (∃ e2, find_expense
        ⟨[⟨1, 1, 150, "Shopping", some ⟨2024, 1, 10⟩, "New"⟩,
          ⟨2, 1, 7, "Misc", some ⟨2024, 2, 2⟩, "keep"⟩], [], [], 3, 1, 1⟩ 1 = some e2 ∧
      (⟨1, 1, 150, "Shopping", some "2024-01-10", "New"⟩ : Row) = e2.toRow) := by
  have hf : find_expense c6db 1 = some ⟨1, 1, 100, "Shopping", some ⟨2024, 1, 10⟩, "Old"⟩ := by
    decide
  have hres : api_update_expense c6db 1 1 ⟨some (.num 150), none, none, some "New"⟩
      = (.updated ⟨1, 1, 150, "Shopping", some "2024-01-10", "New"⟩,
         ⟨[⟨1, 1, 150, "Shopping", some ⟨2024, 1, 10⟩, "New"⟩,
           ⟨2, 1, 7, "Misc", some ⟨2024, 2, 2⟩, "keep"⟩], [], [], 3, 1, 1⟩) := by
    with_unfolding_all decide
  have h := (c6_update_expense_frame c6db 1 1 ⟨some (.num 150), none, none, some "New"⟩
    ⟨1, 1, 100, "Shopping", some ⟨2024, 1, 10⟩, "Old"⟩ hf rfl).2 _ _ hres
  obtain ⟨_, _, _, _, _, _, _, _, _, _, _, _, _, _, _, hex⟩ := h
  exact ⟨hres, hex⟩

/-- C8: add_category strips whitespace and fails EmptyName on an empty
result; with an existing (user, trimmed-name) row it returns that row and
leaves the store unchanged; otherwise it inserts exactly one new row; and
a successful add is idempotent: repeating it returns the same row and
changes nothing. -/
theorem c8_add_category :
    (∀ (db : DB) (u : Nat) (name : String), pyStrip name = "" →
      add_category db u name = .error .emptyName) ∧
    (∀ (db : DB) (u : Nat) (name : String) (c : Category), pyStrip name ≠ "" →
      db.categories.filter (fun c => c.user_id == u && c.name == pyStrip name) = [c] →
      add_category db u name = .ok ((c.id, c.name), db)) ∧
    (∀ (db : DB) (u : Nat) (name : String), pyStrip name ≠ "" →
      db.categories.filter (fun c => c.user_id == u && c.name == pyStrip name) = [] →
      add_category db u name
        = .ok ((db.next_category_id, pyStrip name),
            { db with
              categories := db.categories ++ [⟨db.next_category_id, u, pyStrip name⟩],
              next_category_id := db.next_category_id + 1 })) ∧
    (∀ (db : DB) (u : Nat) (name : String) (r : Nat × String) (db2 : DB),
      add_category db u name = .ok (r, db2) →
      add_category db2 u name = .ok (r, db2)) := by
  have hadd_empty : ∀ (db : DB) (u : Nat) (name : String), pyStrip name = "" →
      add_category db u name = .error .emptyName := by
    intro db u name h
    have hb : (pyStrip name == "") = true := beq_iff_eq.mpr h
    simp [add_category, hb]
  have hadd_found : ∀ (db : DB) (u : Nat) (name : String) (c : Category), pyStrip name ≠ "" →
      db.categories.filter (fun c => c.user_id == u && c.name == pyStrip name) = [c] →
      add_category db u name = .ok ((c.id, c.name), db) := by
    intro db u name c h hfil
    have hb : (pyStrip name == "") = false := beq_false_of_ne h
    simp only [add_category, hb, Bool.false_eq_true, if_false, hfil]
  have hadd_new : ∀ (db : DB) (u : Nat) (name : String), pyStrip name ≠ "" →
      db.categories.filter (fun c => c.user_id == u && c.name == pyStrip name) = [] →
      add_category db u name
        = .ok ((db.next_category_id, pyStrip name),
            { db with
              categories := db.categories ++ [⟨db.next_category_id, u, pyStrip name⟩],
              next_category_id := db.next_category_id + 1 }) := by
    intro db u name h hfil
    have hb : (pyStrip name == "") = false := beq_false_of_ne h
    simp only [add_category, hb, Bool.false_eq_true, if_false, hfil]
  refine ⟨hadd_empty, hadd_found, hadd_new, ?_⟩
  intro db u name r db2 h
  by_cases hemp : pyStrip name = ""
  · rw [hadd_empty db u name hemp] at h
    exact absurd h (by simp)
  · rcases hfil : db.categories.filter
        (fun c => c.user_id == u && c.name == pyStrip name) with _ | ⟨c, cs⟩
    · rw [hadd_new db u name hemp hfil] at h
      obtain ⟨h1, h2⟩ := Prod.mk.inj (Except.ok.inj h)
      have hmatch : ((⟨db.next_category_id, u, pyStrip name⟩ : Category).user_id == u
          && (⟨db.next_category_id, u, pyStrip name⟩ : Category).name == pyStrip name)
            = true := by simp
      have hfil2 : db2.categories.filter
          (fun c => c.user_id == u && c.name == pyStrip name)
            = [(⟨db.next_category_id, u, pyStrip name⟩ : Category)] := by
        rw [← h2]
        show (db.categories ++ [(⟨db.next_category_id, u, pyStrip name⟩ : Category)]).filter _ = _
        rw [List.filter_append, hfil, List.filter_cons, if_pos hmatch]
        rfl
      rw [hadd_found db2 u name ⟨db.next_category_id, u, pyStrip name⟩ hemp hfil2, ← h1]
    · rcases cs with _ | ⟨c2, cs2⟩
      · rw [hadd_found db u name c hemp hfil] at h
        obtain ⟨h1, h2⟩ := Prod.mk.inj (Except.ok.inj h)
        rw [h2] at hfil
        rw [hadd_found db2 u name c hemp hfil, h1]
      · have hb : (pyStrip name == "") = false := beq_false_of_ne hemp
        simp only [add_category, hb, Bool.false_eq_true, if_false, hfil] at h
        exact Except.noConfusion h

/-- C8 witness: adding " Coffee " trims to "Coffee", inserts once, a second
add returns the same row unchanged, and a blank name fails EmptyName. -/
theorem c8_add_category_witness :
    add_category c8db 1 " Coffee "
      = .ok ((1, "Coffee"), ⟨[], [], [⟨1, 1, "Coffee"⟩], 1, 1, 2⟩) ∧
    add_category ⟨[], [], [⟨1, 1, "Coffee"⟩], 1, 1, 2⟩ 1 " Coffee "
      = .ok ((1, "Coffee"), ⟨[], [], [⟨1, 1, "Coffee"⟩], 1, 1, 2⟩) ∧
    add_category c8db 1 "   " = .error .emptyName := by
  have h1 : add_category c8db 1 " Coffee "
      = .ok ((1, "Coffee"), ⟨[], [], [⟨1, 1, "Coffee"⟩], 1, 1, 2⟩) := by decide
  exact ⟨h1, c8_add_category.2.2.2 c8db 1 " Coffee " _ _ h1,
    c8_add_category.1 c8db 1 "   " (by decide)⟩

theorem seedRows_names : ∀ (names : List String) (i u : Nat),
    (seedRows i u names).map (fun c => c.name) = names
  | [], _, _ => rfl
  | n :: ns, i, u => by
    simp only [seedRows, List.map_cons, seedRows_names ns (i + 1) u]

theorem seedRows_user : ∀ (names : List String) (i u : Nat),
    ∀ c ∈ seedRows i u names, c.user_id = u
  | [], _, _ => by intro c hc; exact absurd hc (List.not_mem_nil c)
  | n :: ns, i, u => by
    intro c hc
    rcases List.mem_cons.mp hc with rfl | h2
    · rfl
    · exact seedRows_user ns (i + 1) u c h2

instance : IsTotal Category (fun a b => nameAsc a b = true) := by
  constructor
  intro a b
  by_cases h : pyStrLt b.name a.name = true
  · right
    show (!(pyStrLt a.name b.name)) = true
    rw [pyStrLt_asymm h]
    rfl
  · left
    show (!(pyStrLt b.name a.name)) = true
    rw [Bool.eq_false_iff.mpr h]
    rfl

instance : IsTrans Category (fun a b => nameAsc a b = true) := by
  constructor
  intro a b c hab hbc
  have hab2 : pyStrLt b.name a.name = false := by
    have h2 : (!(pyStrLt b.name a.name)) = true := hab
    cases hx : pyStrLt b.name a.name
    · rfl
    · rw [hx] at h2; exact absurd h2 (by simp)
  have hbc2 : pyStrLt c.name b.name = false := by
    have h2 : (!(pyStrLt c.name b.name)) = true := hbc
    cases hx : pyStrLt c.name b.name
    · rfl
    · rw [hx] at h2; exact absurd h2 (by simp)
  show (!(pyStrLt c.name a.name)) = true
  by_cases hca : pyStrLt c.name a.name = true
  · by_cases h2 : pyStrLt a.name b.name = true
    · have := pyStrLt_trans hca h2
      rw [hbc2] at this
      exact absurd this (by simp)
    · have heq : a.name = b.name := pyStrLt_connex (Bool.eq_false_iff.mpr h2) hab2
      rw [← heq] at hbc2
      rw [hbc2] at hca
      exact absurd hca (by simp)
  · rw [Bool.eq_false_iff.mpr hca]
    rfl

/-- C9: list_categories seeds the ten default names exactly once — only
when the user has zero category rows, so a second call returns the same
rows from the same store — and the returned list is all of that user's
rows, sorted by name ascending. -/
theorem c9_list_categories :
    (∀ (db : DB) (u : Nat),
      db.categories.filter (fun c => c.user_id == u) = [] →
      (((list_categories db u).2.categories.filter (fun c => c.user_id == u)).map
          (fun c => c.name) = DEFAULT_CATEGORIES) ∧
      list_categories (list_categories db u).2 u = list_categories db u) ∧
    (∀ (db : DB) (u : Nat),
      db.categories.filter (fun c => c.user_id == u) ≠ [] →
      (list_categories db u).2 = db) ∧
    (∀ (db : DB) (u : Nat),
      List.Pairwise (fun a b : Nat × String => pyStrLE a.2 b.2 = true)
        (list_categories db u).1 ∧
      ((list_categories db u).1).Perm
        (((list_categories db u).2.categories.filter (fun c => c.user_id == u)).map
          (fun c => (c.id, c.name)))) := by
  have hseedfil : ∀ (db : DB) (u : Nat),
      db.categories.filter (fun c => c.user_id == u) = [] →
      (ensure_default_categories db u).categories.filter (fun c => c.user_id == u)
        = seedRows db.next_category_id u DEFAULT_CATEGORIES := by
    intro db u hfil
    rw [ensure_default_categories, if_pos (by rw [hfil]; rfl)]
    show (db.categories ++ seedRows db.next_category_id u DEFAULT_CATEGORIES).filter _ = _
    rw [List.filter_append, hfil, List.nil_append]
    exact List.filter_eq_self.mpr
      (fun c hc => beq_iff_eq.mpr (seedRows_user DEFAULT_CATEGORIES db.next_category_id u c hc))
  have hnoseed : ∀ (db : DB) (u : Nat),
      db.categories.filter (fun c => c.user_id == u) ≠ [] →
      ensure_default_categories db u = db := by
    intro db u hfil
    rw [ensure_default_categories, if_neg]
    intro hc
    rw [List.isEmpty_iff] at hc
    exact hfil hc
  refine ⟨?_, ?_, ?_⟩
  · intro db u hfil
    have h2 : (list_categories db u).2 = ensure_default_categories db u := rfl
    constructor
    · rw [h2, hseedfil db u hfil, seedRows_names]
    · have hfil2 : (ensure_default_categories db u).categories.filter
          (fun c => c.user_id == u) ≠ [] := by
        rw [hseedfil db u hfil]
        simp [seedRows, DEFAULT_CATEGORIES]
      show list_categories (ensure_default_categories db u) u = _
      rw [list_categories, list_categories, hnoseed _ u hfil2]
  · intro db u hfil
    show ensure_default_categories db u = db
    exact hnoseed db u hfil
  · intro db u
    constructor
    · have hs := List.sorted_insertionSort (fun a b : Category => nameAsc a b = true)
        ((ensure_default_categories db u).categories.filter (fun c => c.user_id == u))
      exact List.pairwise_map.mpr hs
    · exact (List.perm_insertionSort _ _).map _

/-- C9 witness: a brand-new user gets exactly the ten defaults, once. -/
theorem c9_list_categories_witness :
    (((list_categories c9db 1).2.categories.filter (fun c => c.user_id == 1)).map
        (fun c => c.name) = DEFAULT_CATEGORIES) ∧
    list_categories (list_categories c9db 1).2 1 = list_categories c9db 1 ∧
    List.Pairwise (fun a b : Nat × String => pyStrLE a.2 b.2 = true)
      (list_categories c9db 1).1 := by
  have h := c9_list_categories.1 c9db 1 (by decide)
  exact ⟨h.1, h.2, (c9_list_categories.2.2 c9db 1).1⟩

theorem pyStrLt_irrefl (a : String) : pyStrLt a a = false :=
  charListLt_irrefl a.toList

instance : IsTotal Row (fun a b => pyKeyLE b a = true) := by
  constructor
  intro a b
  cases had : a.date with
  | none =>
    cases hbd : b.date with
    | none =>
      rcases Nat.le_total b.id a.id with h | h
      · left
        simp [pyKeyLE, had, hbd, h]
      · right
        simp [pyKeyLE, had, hbd, h]
    | some dbb =>
      right
      simp [pyKeyLE, had, hbd]
  | some da =>
    cases hbd : b.date with
    | none =>
      left
      simp [pyKeyLE, had, hbd]
    | some dbb =>
      by_cases h1 : pyStrLt dbb da = true
      · left
        simp [pyKeyLE, had, hbd, h1]
      · by_cases h2 : pyStrLt da dbb = true
        · right
          simp [pyKeyLE, had, hbd, h2]
        · have heq : dbb = da :=
            pyStrLt_connex (Bool.eq_false_iff.mpr h1) (Bool.eq_false_iff.mpr h2)
          subst heq
          rcases Nat.le_total b.id a.id with h | h
          · left
            simp [pyKeyLE, had, hbd, h]
          · right
            simp [pyKeyLE, had, hbd, h]

instance : IsTrans Row (fun a b => pyKeyLE b a = true) := by
  constructor
  intro a b c hab hbc
  cases had : a.date with
  | none =>
    cases hbd : b.date with
    | none =>
      cases hcd : c.date with
      | none =>
        simp only [pyKeyLE, had, hbd, hcd, decide_eq_true_eq] at hab hbc ⊢
        exact Nat.le_trans hbc hab
      | some dc =>
        simp [pyKeyLE, hcd, hbd] at hbc
    | some dbb =>
      simp [pyKeyLE, hbd, had] at hab
  | some da =>
    cases hcd : c.date with
    | none =>
      simp [pyKeyLE, hcd, had]
    | some dc =>
      cases hbd : b.date with
      | none =>
        simp [pyKeyLE, hcd, hbd] at hbc
      | some dbb =>
        simp only [pyKeyLE, had, hbd, hcd, Bool.or_eq_true, Bool.and_eq_true,
          beq_iff_eq, decide_eq_true_eq] at hab hbc ⊢
        rcases hab with h1 | ⟨he1, hl1⟩
        · rcases hbc with h2 | ⟨he2, hl2⟩
          · exact Or.inl (pyStrLt_trans h2 h1)
          · rw [he2]
            exact Or.inl h1
        · rcases hbc with h2 | ⟨he2, hl2⟩
          · rw [← he1]
            exact Or.inl h2
          · exact Or.inr ⟨he2.trans he1, Nat.le_trans hl2 hl1⟩

theorem pyKeyLE_imp_listedGE {a b : Row} (h : pyKeyLE b a = true) : listedGE a b := by
  cases had : a.date with
  | none =>
    cases hbd : b.date with
    | none =>
      simp only [pyKeyLE, hbd, had, decide_eq_true_eq] at h
      simp only [listedGE, had, hbd]
      exact h
    | some dbb =>
      simp [pyKeyLE, hbd, had] at h
  | some da =>
    cases hbd : b.date with
    | none =>
      simp [listedGE, had, hbd]
    | some dbb =>
      simp only [pyKeyLE, hbd, had, Bool.or_eq_true, Bool.and_eq_true,
        beq_iff_eq, decide_eq_true_eq] at h
      simp only [listedGE, had, hbd]
      exact h

theorem mem_filtered_iff (db : DB) (u : Nat) (category date_from date_to : Option String)
    (r : Row) :
    r ∈ (get_user_expenses db u).filter
        (fun it => catMatch it category && in_range it date_from date_to) ↔
      (r ∈ rowsOfUser db u ∧ (catMatch r category && in_range r date_from date_to) = true) := by
  rw [List.mem_filter]
  have hperm : (get_user_expenses db u).Perm (rowsOfUser db u) :=
    (List.perm_insertionSort _ _).map _
  exact and_congr_left (fun _ => hperm.mem_iff)

theorem mixedDates_iff (l : List Row) :
    mixedDates l = true ↔ (∃ r ∈ l, r.date = none) ∧ (∃ r ∈ l, r.date ≠ none) := by
  simp only [mixedDates, Bool.and_eq_true, List.any_eq_true,
    Option.isNone_iff_eq_none, Option.isSome_iff_ne_none]

/-- C7 amended: list-for-user returns exactly the user's expenses matching
the category filter and the date-range filter — where an expense with no
date always passes the date filter — ordered descending by date with ties
broken by descending id and dateless rows after dated ones; except that
when the filtered rows mix dated and dateless expenses, the sort raises a
TypeError and the listing fails instead of returning anything. -/
theorem c7_list_expenses (db : DB) (u : Nat) (category date_from date_to : Option String) :
    (api_list_expenses db u category date_from date_to = .error .typeErr ↔
      ((∃ r ∈ rowsOfUser db u,
          (catMatch r category && in_range r date_from date_to) = true ∧ r.date = none) ∧
       (∃ r ∈ rowsOfUser db u,
          (catMatch r category && in_range r date_from date_to) = true ∧ r.date ≠ none))) ∧
    (∀ l, api_list_expenses db u category date_from date_to = .ok l →
      (∀ r, r ∈ l ↔ r ∈ rowsOfUser db u ∧
          (catMatch r category && in_range r date_from date_to) = true) ∧
      List.Pairwise listedGE l) := by
  constructor
  · constructor
    · intro herr
      by_cases hmix : mixedDates ((get_user_expenses db u).filter
          (fun it => catMatch it category && in_range it date_from date_to)) = true
      · rcases (mixedDates_iff _).mp hmix with ⟨⟨r1, hr1, hd1⟩, ⟨r2, hr2, hd2⟩⟩
        rcases (mem_filtered_iff db u category date_from date_to r1).mp hr1 with ⟨hm1, hp1⟩
        rcases (mem_filtered_iff db u category date_from date_to r2).mp hr2 with ⟨hm2, hp2⟩
        exact ⟨⟨r1, hm1, hp1, hd1⟩, ⟨r2, hm2, hp2, hd2⟩⟩
      · simp only [api_list_expenses] at herr
        rw [if_neg hmix] at herr
        exact absurd herr (by simp)
    · rintro ⟨⟨r1, hm1, hp1, hd1⟩, ⟨r2, hm2, hp2, hd2⟩⟩
      have hmix : mixedDates ((get_user_expenses db u).filter
          (fun it => catMatch it category && in_range it date_from date_to)) = true :=
        (mixedDates_iff _).mpr
          ⟨⟨r1, (mem_filtered_iff db u category date_from date_to r1).mpr ⟨hm1, hp1⟩, hd1⟩,
           ⟨r2, (mem_filtered_iff db u category date_from date_to r2).mpr ⟨hm2, hp2⟩, hd2⟩⟩
      simp only [api_list_expenses]
      rw [if_pos hmix]
  · intro l hok
    have hmix : mixedDates ((get_user_expenses db u).filter
        (fun it => catMatch it category && in_range it date_from date_to)) = false := by
      cases hmv : mixedDates ((get_user_expenses db u).filter
          (fun it => catMatch it category && in_range it date_from date_to)) with
      | false => rfl
      | true =>
        simp only [api_list_expenses] at hok
        rw [if_pos hmv] at hok
        exact absurd hok (by simp)
    have hl : l = List.insertionSort (fun a b => pyKeyLE b a = true)
        ((get_user_expenses db u).filter
          (fun it => catMatch it category && in_range it date_from date_to)) := by
      simp only [api_list_expenses] at hok
      rw [if_neg (by rw [hmix]; exact Bool.false_ne_true)] at hok
      exact (Except.ok.inj hok).symm
    subst hl
    constructor
    · intro r
      rw [(List.perm_insertionSort (fun a b => pyKeyLE b a = true) _).mem_iff]
      exact mem_filtered_iff db u category date_from date_to r
    · exact (List.sorted_insertionSort (fun a b => pyKeyLE b a = true) _).imp
        (fun hab => pyKeyLE_imp_listedGE hab)

/-- C7 counterexample: with both bounds supplied, user 1's only (dateless)
expense is returned even though its date does not lie in the requested
inclusive range — the claim's "whose date lies in [date_from, date_to]"
does not hold of the code. -/
theorem c7_list_expenses_counterexample :
    api_list_expenses c7db 1 none (some "2024-01-01") (some "2024-12-31")
      = .ok [⟨1, 1, 5, "Food", none, ""⟩] ∧
    specDateInRange ⟨1, 1, 5, "Food", none, ""⟩ (some "2024-01-01") (some "2024-12-31")
      = false := by
  exact ⟨by decide, by decide⟩

/-- C7 witness: three dated expenses listed with no filters come back
most-recent first, the date tie broken by descending id. -/
theorem c7_list_expenses_witness :
    api_list_expenses c7wdb 1 none none none
      = .ok [⟨2, 1, 20, "B", some "2024-02-01", ""⟩,
             ⟨3, 1, 30, "C", some "2024-01-05", ""⟩,
             ⟨1, 1, 10, "A", some "2024-01-05", ""⟩] ∧
    List.Pairwise listedGE
      [⟨2, 1, 20, "B", some "2024-02-01", ""⟩,
       ⟨3, 1, 30, "C", some "2024-01-05", ""⟩,
       ⟨1, 1, 10, "A", some "2024-01-05", ""⟩] ∧
    (⟨2, 1, 20, "B", some "2024-02-01", ""⟩ : Row) ∈ rowsOfUser c7wdb 1 := by
  have hok : api_list_expenses c7wdb 1 none none none
      = .ok [⟨2, 1, 20, "B", some "2024-02-01", ""⟩,
             ⟨3, 1, 30, "C", some "2024-01-05", ""⟩,
             ⟨1, 1, 10, "A", some "2024-01-05", ""⟩] := by decide
  have h := (c7_list_expenses c7wdb 1 none none none).2 _ hok
  refine ⟨hok, h.2, ?_⟩
  exact ((h.1 ⟨2, 1, 20, "B", some "2024-02-01", ""⟩).mp (by decide)).1

end ExpenseTracker
